import Mathlib

/-!
# kickoff-backend: the request handlers of `server.js`

A shallow embedding of the six Express route handlers, the middleware in front
of them and the fallback behind them.

* A handler is a value of `Prog`: the responses it sends, the statements it
  hands to `db.query` together with the callback that receives the reply, and
  the point where an exception escapes.
* `run` executes a `Prog` against a `Db`, any function from statements and
  storage to replies; results that speak of "every storage outcome" are proved
  for every `Db`.
* `Codec.db` is the relational store the seven SQL statements of the source
  speak to: two tables, filtered, ordered, inserted into, updated and deleted
  from as the statements say.  How the store converts a bound JavaScript value
  to a column value is a parameter (`Codec`).
* A response in a run is the status and the body the handler hands to
  `res.json`; `sent` is what goes out, the status without the body when the
  request is a `HEAD` request.
-/

namespace Kickoff

/-! ## JavaScript values -/

/-- A JavaScript value as it reaches a handler: a member of the parsed JSON
body, a query-string entry, or `undefined` for a member that is absent.
Of a number the handlers observe only whether it is zero. -/
inductive JsVal where
  | undefined
  | null
  | bool (b : Bool)
  | num (n : Int)
  | str (s : String)
  | arr (items : List JsVal)
  | obj (members : List (String × JsVal))

namespace JsVal

/-- JavaScript truthiness: `!v` is `false` exactly when `truthy v`. -/
def truthy : JsVal → Bool
  | undefined => false
  | null => false
  | bool b => b
  | num n => n != 0
  | str s => s != ""
  | arr _ => true
  | obj _ => true

end JsVal

/-- A parsed object: the members in the order of the JSON text. -/
abbrev Fields := List (String × JsVal)

/-- Property read `o.key`: the last member of that name (as `JSON.parse` keeps
it), `undefined` when there is none. -/
def field (o : Fields) (key : String) : JsVal :=
  match o.reverse.find? (fun m => m.1 == key) with
  | some m => m.2
  | none => JsVal.undefined

/-- The characters of a string before its first `@`. -/
def beforeAtChars : List Char → List Char
  | [] => []
  | c :: cs => if c = '@' then [] else c :: beforeAtChars cs

/-- The JavaScript expression `s.split("@")[0]` on a string `s`. -/
def beforeAt (s : String) : String := String.mk (beforeAtChars s.data)

/-! ## Rows, statements and replies -/

/-- A row of `SELECT id, username FROM users`. -/
structure UserRow where
  id : Nat
  username : String
deriving DecidableEq, Repr

/-- A row of the two event `SELECT`s: `date` and `time` are the texts produced
by `DATE_FORMAT` and `TIME_FORMAT`. -/
structure EventRow where
  id : Nat
  user_id : Nat
  title : String
  date : String
  time : String
  description : Option String
  link : Option String
deriving DecidableEq, Repr

/-- The result header of a writing statement. -/
structure ResultHeader where
  insertId : Nat
  affectedRows : Nat
deriving DecidableEq, Repr

/-- The error object a failed statement passes to its callback. -/
structure DbError where
  message : String
  code : String
  stack : String
deriving DecidableEq, Repr

/-- The statements of the source that return event rows, with their bound
parameters. -/
inductive EventQuery where
  /-- The statement `SELECT ... FROM events WHERE user_id = ? ORDER BY date ASC, time ASC`. -/
  | byUser (userId : JsVal)
  /-- The statement `SELECT ... FROM events WHERE id = ?`. -/
  | byId (eventId : JsVal)

/-- The writing statements of the source, with their bound parameters in the
order of the parameter array. -/
inductive Write where
  /-- The statement `INSERT INTO users (firebase_uid, email, username) VALUES (?, ?, ?)`. -/
  | insertUser (firebaseUid email username : JsVal)
  /-- The statement `INSERT INTO events (user_id, title, date, time, description, link) VALUES (?, ?, ?, ?, ?, ?)`. -/
  | insertEvent (userId title date time description link : JsVal)
  /-- The statement `UPDATE events SET title = ?, date = ?, time = ?, description = ?, link = ? WHERE id = ?`. -/
  | updateEvent (title date time description link eventId : JsVal)
  /-- The statement `DELETE FROM events WHERE id = ?`. -/
  | deleteEvent (eventId : JsVal)

/-- Any statement handed to `db.query`. -/
inductive Stmt where
  /-- The statement `SELECT id, username FROM users WHERE firebase_uid = ?`. -/
  | selectUsers (firebaseUid : JsVal)
  | selectEvents (q : EventQuery)
  | write (w : Write)

/-- The JSON bodies the server sends. -/
inductive Body where
  /-- The body `{error: message}`. -/
  | error (message : String)
  /-- The body `{id, username}`. -/
  | user (id : Nat) (username : String)
  /-- An array of event rows. -/
  | events (rows : List EventRow)
  /-- One event row. -/
  | event (row : EventRow)
  /-- The body `{id, message}`. -/
  | created (id : Nat) (message : String)
  /-- The body `{message, eventId}`. -/
  | changed (message : String) (eventId : String)
  /-- No content (the answer of the CORS middleware to a preflight). -/
  | empty
  /-- The error page of the framework (not JSON), sent when a middleware
  reports an error. -/
  | errorPage
deriving DecidableEq, Repr

/-- One response: status code and body. -/
abbrev Response := Nat × Body

/-! ## Handlers as programs -/

/-- What a handler does: send a response and go on, end, let an exception
escape, or hand a statement to `db.query` with the callback for its reply. -/
inductive Prog where
  | send (status : Nat) (body : Body) (next : Prog)
  | done
  | throw (error : String)
  | selectUsers (firebaseUid : JsVal) (k : Except DbError (List UserRow) → Prog)
  | selectEvents (q : EventQuery) (k : Except DbError (List EventRow) → Prog)
  | write (w : Write) (k : Except DbError ResultHeader → Prog)

/-- The statement `return res.status(code).json(body)`, also `res.json(body)`
as the last statement of a callback. -/
def reply (status : Nat) (body : Body) : Prog := Prog.send status body Prog.done

/-- The handler of `app.post("/login")`. -/
def login (body : Fields) : Prog :=
  let firebaseUid := field body "firebaseUid"
  let email := field body "email"
  if !firebaseUid.truthy || !email.truthy then
    reply 400 (Body.error "Missing firebaseUid or email")
  else
    Prog.selectUsers firebaseUid fun r =>
      match r with
      | Except.error _ => reply 500 (Body.error "Database query failed")
      | Except.ok results =>
        match results with
        | row :: _ => reply 200 (Body.user row.id row.username)
        | [] =>
          match email with
          | JsVal.str e =>
            let username := beforeAt e
            Prog.write (Write.insertUser firebaseUid email (JsVal.str username)) fun r2 =>
              match r2 with
              | Except.error _ => reply 500 (Body.error "Failed to register user")
              | Except.ok results2 => reply 200 (Body.user results2.insertId username)
          | _ => Prog.throw "TypeError: email.split is not a function"

/-- The handler of `app.get("/events")`. -/
def listEvents (query : Fields) : Prog :=
  let userId := field query "userId"
  if !userId.truthy then
    reply 400 (Body.error "Missing userId")
  else
    Prog.selectEvents (EventQuery.byUser userId) fun r =>
      match r with
      | Except.error _ => reply 500 (Body.error "Database query failed")
      | Except.ok results => reply 200 (Body.events results)

/-- The handler of `app.post("/events")`. -/
def createEvent (body : Fields) : Prog :=
  let userId := field body "userId"
  let title := field body "title"
  let date := field body "date"
  let time := field body "time"
  let description := field body "description"
  let link := field body "link"
  if !userId.truthy || !title.truthy || !date.truthy || !time.truthy then
    reply 400 (Body.error "Missing required fields")
  else
    Prog.write (Write.insertEvent userId title date time description link) fun r =>
      match r with
      | Except.error _ => reply 500 (Body.error "Failed to create event")
      | Except.ok results => reply 200 (Body.created results.insertId "Event created successfully")

/-- The handler of `app.put("/events/:id")`. -/
def updateEvent (eventId : String) (body : Fields) : Prog :=
  let title := field body "title"
  let date := field body "date"
  let time := field body "time"
  let description := field body "description"
  let link := field body "link"
  if !title.truthy || !date.truthy || !time.truthy then
    reply 400 (Body.error "Missing required fields")
  else
    Prog.write (Write.updateEvent title date time description link (JsVal.str eventId)) fun r =>
      match r with
      | Except.error _ => reply 500 (Body.error "Failed to update event")
      | Except.ok results =>
        if results.affectedRows = 0 then
          reply 404 (Body.error "Event not found")
        else
          reply 200 (Body.changed "Event updated successfully" eventId)

/-- The handler of `app.delete("/events/:id")`. -/
def deleteEvent (eventId : String) : Prog :=
  Prog.write (Write.deleteEvent (JsVal.str eventId)) fun r =>
    match r with
    | Except.error _ => reply 500 (Body.error "Failed to delete event")
    | Except.ok results =>
      if results.affectedRows = 0 then
        reply 404 (Body.error "Event not found")
      else
        reply 200 (Body.changed "Event deleted successfully" eventId)

/-- The handler of `app.get("/events/:id")`. -/
def getEvent (eventId : String) : Prog :=
  Prog.selectEvents (EventQuery.byId (JsVal.str eventId)) fun r =>
    match r with
    | Except.error _ => reply 500 (Body.error "Database query failed")
    | Except.ok results =>
      match results with
      | [] => reply 404 (Body.error "Event not found")
      | row :: _ => reply 200 (Body.event row)

/-- The last middleware, `app.use((req, res) => ...)`. -/
def notFound : Prog := reply 404 (Body.error "Route not found")

/-! ## Requests and dispatch -/

/-- The request method. -/
inductive Method where
  | get | head | post | put | delete | patch | options
  /-- Any other method token. -/
  | other
deriving DecidableEq, Repr

/-- A request as the application sees it. `path` holds the segments of the
URL path, the text between the slashes after the first one, so `/events/1` is
`["events", "1"]` and `/events/` is `["events", ""]`; segments carry no
percent-escapes. `query` is the parsed query string. `body` is what
`express.json()` made of the body: the members of the parsed document (no
members for a request without a body), or `none` when the middleware rejected
it as malformed JSON. -/
structure Request where
  method : Method
  path : List String
  query : Fields
  body : Option Fields

/-- ASCII lower case, the case folding of route matching. -/
def lower (s : String) : String := String.mk (s.data.map Char.toLower)

/-- Route matching ignores one trailing slash. -/
def dropTrailingSlash : List String → List String
  | [] => []
  | [a] => [a]
  | [a, b] => if b = "" then [a] else [a, b]
  | a :: rest => a :: dropTrailingSlash rest

/-- Whether the path matches the literal route `/name`. -/
def matchesLiteral (name : String) (path : List String) : Bool :=
  match dropTrailingSlash path with
  | [a] => lower a == name
  | _ => false

/-- The `id` parameter when the path matches `/events/:id`. -/
def matchEventId (path : List String) : Option String :=
  match dropTrailingSlash path with
  | [a, id] => if lower a == "events" && id != "" then some id else none
  | _ => none

/-- Whether a route registered for `registered` takes a request with method
`m`: the same method, or `HEAD` on a `GET` route. -/
def takes (registered m : Method) : Bool :=
  m == registered || (m == Method.head && registered == Method.get)

/-- The six routes in the order they are registered, then the fallback. -/
def routes (req : Request) (body : Fields) : Prog :=
  if takes Method.post req.method && matchesLiteral "login" req.path then
    login body
  else if takes Method.get req.method && matchesLiteral "events" req.path then
    listEvents req.query
  else if takes Method.post req.method && matchesLiteral "events" req.path then
    createEvent body
  else
    match matchEventId req.path with
    | some id =>
      if takes Method.put req.method then updateEvent id body
      else if takes Method.delete req.method then deleteEvent id
      else if takes Method.get req.method then getEvent id
      else notFound
    | none => notFound

/-- The whole application: `cors()` answers every `OPTIONS` request itself,
`express.json()` passes a rejected body to the error handler of the
framework, and the rest goes to the routes. -/
def handle (req : Request) : Prog :=
  if req.method = Method.options then
    reply 204 Body.empty
  else
    match req.body with
    | none => reply 400 Body.errorPage
    | some body => routes req body

/-- What goes out for a response: to a `HEAD` request the framework sends the
status and leaves the body out. -/
def sent (req : Request) (r : Response) : Response :=
  if req.method = Method.head then (r.1, Body.empty) else r

/-! ## Running a handler against a store -/

/-- The behaviour of `db.query` over a store of type `σ`: a reading statement
returns rows or an error, a writing statement a header and the new store or an
error (the store is then as before). -/
structure Db (σ : Type) where
  selectUsers : JsVal → σ → Except DbError (List UserRow)
  selectEvents : EventQuery → σ → Except DbError (List EventRow)
  write : Write → σ → Except DbError (ResultHeader × σ)

/-- What handling one request produced: the responses sent, in order; whether
an exception escaped; the statements handed to the store, each with whether it
succeeded; the store afterwards. -/
structure Run (σ : Type) where
  responses : List Response
  threw : Bool
  trace : List (Stmt × Bool)
  storage : σ

/-- Whether a reply is a result rather than an error. -/
def succeeded {α : Type} : Except DbError α → Bool
  | Except.ok _ => true
  | Except.error _ => false

/-- What the callback of a writing statement receives. -/
def headerOf {σ : Type} : Except DbError (ResultHeader × σ) → Except DbError ResultHeader
  | Except.ok (h, _) => Except.ok h
  | Except.error e => Except.error e

/-- The store after a writing statement: as before when the statement failed. -/
def storeAfter {σ : Type} (s : σ) : Except DbError (ResultHeader × σ) → σ
  | Except.ok (_, s2) => s2
  | Except.error _ => s

/-- Execute a handler. -/
def run {σ : Type} (db : Db σ) : Prog → σ → Run σ
  | Prog.send status body next, s =>
    let r := run db next s
    ⟨(status, body) :: r.responses, r.threw, r.trace, r.storage⟩
  | Prog.done, s => ⟨[], false, [], s⟩
  | Prog.throw _, s => ⟨[], true, [], s⟩
  | Prog.selectUsers uid k, s =>
    let rep := db.selectUsers uid s
    let r := run db (k rep) s
    ⟨r.responses, r.threw, (Stmt.selectUsers uid, succeeded rep) :: r.trace, r.storage⟩
  | Prog.selectEvents q k, s =>
    let rep := db.selectEvents q s
    let r := run db (k rep) s
    ⟨r.responses, r.threw, (Stmt.selectEvents q, succeeded rep) :: r.trace, r.storage⟩
  | Prog.write w k, s =>
    let rep := db.write w s
    let r := run db (k (headerOf rep)) (storeAfter s rep)
    ⟨r.responses, r.threw, (Stmt.write w, succeeded rep) :: r.trace, r.storage⟩

/-! ## The relational store -/

/-- Modelled from the spec: the `users` table, whose declaration is not part of
the source (section 3: integer `id`, string `externalUid`, `email`,
`username`). -/
structure User where
  id : Nat
  firebase_uid : String
  email : String
  username : String
deriving DecidableEq, Repr

/-- Modelled from the spec: a calendar date (year, month, day), the type of
the column `events.date`. -/
structure Date where
  year : Nat
  month : Nat
  day : Nat
deriving DecidableEq, Repr

/-- Modelled from the spec: a time of day (hour, minute), the type of the
column `events.time`. -/
structure Time where
  hour : Nat
  minute : Nat
deriving DecidableEq, Repr

/-- Modelled from the spec: the `events` table, whose declaration is not part
of the source (section 3: integer `id` and `userId`, string `title`, a date, a
time, nullable `description` and `link`). -/
structure Event where
  id : Nat
  user_id : Nat
  title : String
  date : Date
  time : Time
  description : Option String
  link : Option String
deriving DecidableEq, Repr

/-- The two tables, each with the next identifier its auto-increment key
hands out. -/
structure Storage where
  users : List User
  events : List Event
  nextUserId : Nat
  nextEventId : Nat
deriving DecidableEq, Repr

/-- How the store reads a bound parameter, a parameter of the model since the
store is not part of the source. Binding a value to a column gives the column
value or rejects the statement; comparing a column with a bound value gives
the test on the column or rejects the statement. -/
structure Codec where
  text : JsVal → Except DbError String
  int : JsVal → Except DbError Nat
  date : JsVal → Except DbError Date
  time : JsVal → Except DbError Time
  textEq : JsVal → Except DbError (String → Bool)
  intEq : JsVal → Except DbError (Nat → Bool)
  /-- Whether the statement stands with a one-element array or a non-empty
  object written into it. -/
  composite : JsVal → Except DbError Unit

/-- A decimal number padded with zeros on the left to `width` digits. -/
def zeroPad (width n : Nat) : String :=
  String.mk (List.replicate (width - (Nat.repr n).length) '0') ++ Nat.repr n

/-- The expression `DATE_FORMAT(date, '%Y-%m-%d')`. -/
def formatDate (d : Date) : String :=
  zeroPad 4 d.year ++ "-" ++ zeroPad 2 d.month ++ "-" ++ zeroPad 2 d.day

/-- The expression `TIME_FORMAT(time, '%H:%i')`. -/
def formatTime (t : Time) : String :=
  zeroPad 2 t.hour ++ ":" ++ zeroPad 2 t.minute

/-- The select list of the two event queries. -/
def eventRow (e : Event) : EventRow :=
  ⟨e.id, e.user_id, e.title, formatDate e.date, formatTime e.time, e.description, e.link⟩

/-- The order of texts, character by character: the first character that
differs decides, and a text comes before each text it begins. -/
def charsLt : List Char → List Char → Bool
  | [], [] => false
  | [], _ :: _ => true
  | _ :: _, [] => false
  | a :: as, b :: bs => if a < b then true else if b < a then false else charsLt as bs

/-- The order of two strings, character by character. -/
def textLt (a b : String) : Bool := charsLt a.data b.data

/-- The order of `ORDER BY date ASC, time ASC`: the names are those of the
select list, so the rows are ordered by the formatted date text, then by the
formatted time text. -/
def rowLe (a b : EventRow) : Prop :=
  textLt a.date b.date = true ∨ (a.date = b.date ∧ textLt b.time a.time = false)

instance rowLeDecidable : DecidableRel rowLe := fun a b => by
  unfold rowLe
  exact inferInstance

/-- The order of two stored events in a listing: the order of their rows. -/
def eventLe (a b : Event) : Prop := rowLe (eventRow a) (eventRow b)

instance eventLeDecidable : DecidableRel eventLe := fun a b => by
  unfold eventLe
  exact inferInstance

/-- Ascending by date, then by time of day, as values. -/
def dateTimeLe (a b : Event) : Prop :=
  a.date.year < b.date.year ∨ (a.date.year = b.date.year ∧
    (a.date.month < b.date.month ∨ (a.date.month = b.date.month ∧
      (a.date.day < b.date.day ∨ (a.date.day = b.date.day ∧
        (a.time.hour < b.time.hour ∨ (a.time.hour = b.time.hour ∧
          a.time.minute ≤ b.time.minute)))))))

instance dateTimeLeDecidable : DecidableRel dateTimeLe := fun a b => by
  unfold dateTimeLe
  exact inferInstance

/-- The error of a statement that cannot be parsed. -/
def malformedStatement : DbError :=
  ⟨"You have an error in your SQL syntax", "ER_PARSE_ERROR", ""⟩

namespace Codec

/-- Binding to a nullable text column: `undefined` and `null` are sent as
`NULL`. -/
def nullable (C : Codec) : JsVal → Except DbError (Option String)
  | JsVal.undefined => Except.ok none
  | JsVal.null => Except.ok none
  | v => (C.text v).map some

/-- The statement `SELECT id, username FROM users WHERE firebase_uid = ?`. -/
def selectUsers (C : Codec) (firebaseUid : JsVal) (s : Storage) :
    Except DbError (List UserRow) :=
  match C.textEq firebaseUid with
  | Except.error e => Except.error e
  | Except.ok f =>
    Except.ok ((s.users.filter fun u => f u.firebase_uid).map fun u => ⟨u.id, u.username⟩)

/-- The two statements that select events. -/
def selectEvents (C : Codec) (q : EventQuery) (s : Storage) :
    Except DbError (List EventRow) :=
  match q with
  | EventQuery.byUser userId =>
    match C.intEq userId with
    | Except.error e => Except.error e
    | Except.ok f =>
      Except.ok (((s.events.filter fun e => f e.user_id).map eventRow).insertionSort rowLe)
  | EventQuery.byId eventId =>
    match C.intEq eventId with
    | Except.error e => Except.error e
    | Except.ok f => Except.ok ((s.events.filter fun e => f e.id).map eventRow)

/-- The client writes each bound value into the text of the statement before
it is sent: a scalar as one literal, an array as its elements and an object as
its members, separated by commas. An array without exactly one element or an
object without members leaves a statement that cannot be parsed; whether the
statement stands with another array or object is for the store to say. -/
def check (C : Codec) : JsVal → Except DbError Unit
  | JsVal.arr items =>
    if items.length = 1 then C.composite (JsVal.arr items)
    else Except.error malformedStatement
  | JsVal.obj members =>
    if members.length = 0 then Except.error malformedStatement
    else C.composite (JsVal.obj members)
  | _ => Except.ok ()

/-- The check of the five values an `UPDATE` sets. -/
def checkValues (C : Codec) (title date time description link : JsVal) :
    Except DbError Unit := do
  C.check title
  C.check date
  C.check time
  C.check description
  C.check link

/-- The column values of a new user row. -/
def userValues (C : Codec) (firebaseUid email username : JsVal) :
    Except DbError (String × String × String) := do
  let u ← C.text firebaseUid
  let e ← C.text email
  let n ← C.text username
  pure (u, e, n)

/-- The values of the five columns an `UPDATE` sets and an `INSERT` fills. -/
def eventValues (C : Codec) (title date time description link : JsVal) :
    Except DbError (String × Date × Time × Option String × Option String) := do
  let t ← C.text title
  let d ← C.date date
  let tm ← C.time time
  let de ← C.nullable description
  let li ← C.nullable link
  pure (t, d, tm, de, li)

/-- The four writing statements. An `UPDATE` is parsed with its bound values
before any row is looked at; the values are converted when they are stored in
a matching row. An `UPDATE` or `DELETE` that matches no row changes nothing and
reports zero affected rows; the affected rows of an `UPDATE` are the rows
matched. -/
def write (C : Codec) (w : Write) (s : Storage) : Except DbError (ResultHeader × Storage) :=
  match w with
  | Write.insertUser firebaseUid email username =>
    match C.userValues firebaseUid email username with
    | Except.error e => Except.error e
    | Except.ok (u, e, n) =>
      Except.ok (⟨s.nextUserId, 1⟩,
        ⟨s.users ++ [⟨s.nextUserId, u, e, n⟩], s.events, s.nextUserId + 1, s.nextEventId⟩)
  | Write.insertEvent userId title date time description link =>
    match C.int userId, C.eventValues title date time description link with
    | Except.error e, _ => Except.error e
    | _, Except.error e => Except.error e
    | Except.ok uid, Except.ok (t, d, tm, de, li) =>
      Except.ok (⟨s.nextEventId, 1⟩,
        ⟨s.users, s.events ++ [⟨s.nextEventId, uid, t, d, tm, de, li⟩], s.nextUserId,
          s.nextEventId + 1⟩)
  | Write.updateEvent title date time description link eventId =>
    match C.intEq eventId with
    | Except.error e => Except.error e
    | Except.ok f =>
      match C.checkValues title date time description link with
      | Except.error e => Except.error e
      | Except.ok _ =>
        if (s.events.filter fun e => f e.id) = [] then
          Except.ok (⟨0, 0⟩, s)
        else
          match C.eventValues title date time description link with
          | Except.error e => Except.error e
          | Except.ok (t, d, tm, de, li) =>
            Except.ok (⟨0, (s.events.filter fun e => f e.id).length⟩,
              ⟨s.users,
                s.events.map fun e =>
                  if f e.id then ⟨e.id, e.user_id, t, d, tm, de, li⟩ else e,
                s.nextUserId, s.nextEventId⟩)
  | Write.deleteEvent eventId =>
    match C.intEq eventId with
    | Except.error e => Except.error e
    | Except.ok f =>
      Except.ok (⟨0, (s.events.filter fun e => f e.id).length⟩,
        ⟨s.users, s.events.filter fun e => !f e.id, s.nextUserId, s.nextEventId⟩)

/-- The store as seen through `db.query`. -/
def db (C : Codec) : Db Storage := ⟨C.selectUsers, C.selectEvents, C.write⟩

end Codec

/-! ## Date and time texts -/

/-- The value of a string of decimal digits. -/
def digitsValue : List Char → Option Nat
  | [] => none
  | cs => cs.foldl (fun acc c =>
      match acc with
      | some n => if c.isDigit then some (10 * n + (c.toNat - 48)) else none
      | none => none) (some 0)

/-- The pieces of a text between occurrences of `sep`. -/
def splitAt (sep : Char) : List Char → List (List Char)
  | [] => [[]]
  | c :: cs =>
    if c = sep then [] :: splitAt sep cs
    else
      match splitAt sep cs with
      | [] => [[c]]
      | piece :: pieces => (c :: piece) :: pieces

/-- The error a store reports for a value it cannot read. -/
def badValue : DbError := ⟨"Incorrect value", "ER_TRUNCATED_WRONG_VALUE", ""⟩

/-- The date a text `year-month-day` writes: a year of four digits, a month
from 1 to 12 and a day from 1 to 31 of one or two digits each. -/
def readDate (s : String) : Except DbError Date :=
  match splitAt '-' s.data with
  | [y, m, d] =>
    match digitsValue y, digitsValue m, digitsValue d with
    | some year, some month, some day =>
      if y.length = 4 ∧ year ≤ 9999 ∧ m.length ≤ 2 ∧ 1 ≤ month ∧ month ≤ 12 ∧
          d.length ≤ 2 ∧ 1 ≤ day ∧ day ≤ 31 then
        Except.ok ⟨year, month, day⟩
      else Except.error badValue
    | _, _, _ => Except.error badValue
  | _ => Except.error badValue

/-- The time of day a text `hour:minute` writes: an hour up to 23 and a minute
up to 59 of one or two digits each. -/
def readTime (s : String) : Except DbError Time :=
  match splitAt ':' s.data with
  | [h, m] =>
    match digitsValue h, digitsValue m with
    | some hour, some minute =>
      if h.length ≤ 2 ∧ hour ≤ 23 ∧ m.length ≤ 2 ∧ minute ≤ 59 then Except.ok ⟨hour, minute⟩
      else Except.error badValue
    | _, _ => Except.error badValue
  | _ => Except.error badValue

/-- The text `YYYY-MM-DD` of a date, digit by digit. -/
def dateText (d : Date) : String :=
  String.mk [Nat.digitChar (d.year / 1000), Nat.digitChar (d.year / 100 % 10),
    Nat.digitChar (d.year / 10 % 10), Nat.digitChar (d.year % 10), '-',
    Nat.digitChar (d.month / 10), Nat.digitChar (d.month % 10), '-',
    Nat.digitChar (d.day / 10), Nat.digitChar (d.day % 10)]

/-- The text `HH:MM` of a time of day, digit by digit. -/
def timeText (t : Time) : String :=
  String.mk [Nat.digitChar (t.hour / 10), Nat.digitChar (t.hour % 10), ':',
    Nat.digitChar (t.minute / 10), Nat.digitChar (t.minute % 10)]

/-- A number of one digit written with two: a zero in front. -/
def padTwo : List Char → List Char
  | [c] => ['0', c]
  | cs => cs

/-- A date of the calendar: a year of at most four digits, a month up to 12, a
day up to 31. -/
def Date.InRange (d : Date) : Prop := d.year ≤ 9999 ∧ d.month ≤ 12 ∧ d.day ≤ 31

/-- A time of day: an hour up to 23, a minute up to 59. -/
def Time.InRange (t : Time) : Prop := t.hour ≤ 23 ∧ t.minute ≤ 59

/-- What a returned row has to show of a stored event: its id, user, title,
description and link as stored, its date as `YYYY-MM-DD` and its time as
`HH:MM`. -/
def Shows (row : EventRow) (e : Event) : Prop :=
  row.id = e.id ∧ row.user_id = e.user_id ∧ row.title = e.title ∧
    row.date = dateText e.date ∧ row.time = timeText e.time ∧
    row.description = e.description ∧ row.link = e.link

/-- A store that reads a `year-month-day` text as the date it writes and an
`hour:minute` text as the time it writes, whenever it accepts the text. -/
structure Codec.ReadsTexts (C : Codec) : Prop where
  date_text : ∀ s d d2, readDate s = Except.ok d → C.date (JsVal.str s) = Except.ok d2 → d2 = d
  time_text : ∀ s t t2, readTime s = Except.ok t → C.time (JsVal.str s) = Except.ok t2 → t2 = t

/-! ## A concrete store for examples -/

/-- A store that reads strings only: a text column takes a string as it is, an
integer column a string of digits, a date `year-month-day` and a time
`hour:minute`; it rejects everything else. -/
def plainCodec : Codec where
  text v := match v with
    | JsVal.str s => Except.ok s
    | _ => Except.error badValue
  int v := match v with
    | JsVal.str s =>
      match digitsValue s.data with
      | some n => Except.ok n
      | none => Except.error badValue
    | _ => Except.error badValue
  date v := match v with
    | JsVal.str s => readDate s
    | _ => Except.error badValue
  time v := match v with
    | JsVal.str s => readTime s
    | _ => Except.error badValue
  textEq v := match v with
    | JsVal.str s => Except.ok fun column => column == s
    | _ => Except.error badValue
  intEq v := match v with
    | JsVal.str s =>
      match digitsValue s.data with
      | some n => Except.ok fun column => column == n
      | none => Except.ok fun _ => false
    | _ => Except.error badValue
  composite _ := Except.error badValue

/-- A store with no rows. -/
def emptyStorage : Storage := ⟨[], [], 1, 1⟩

/-- A store with two users; the first has an event on 2024-03-01 inserted
before one on 2024-01-15. -/
def exampleStorage : Storage :=
  ⟨[⟨1, "u1", "jane.doe@example.com", "jane.doe"⟩, ⟨2, "u2", "sam@example.org", "sam"⟩],
    [⟨1, 1, "Launch", ⟨2024, 3, 1⟩, ⟨10, 0⟩, none, none⟩,
      ⟨2, 2, "Review", ⟨2024, 2, 2⟩, ⟨14, 0⟩, none, none⟩,
      ⟨3, 1, "Kickoff", ⟨2024, 1, 15⟩, ⟨9, 30⟩, some "bring slides",
        some "https://example.com/kickoff"⟩],
    3, 4⟩

/-- PUT /events/3 with a new title, date and time and neither description nor
link. -/
def exampleUpdate : Request :=
  ⟨Method.put, ["events", "3"], [],
    some [("title", JsVal.str "Kickoff, moved"), ("date", JsVal.str "2024-1-16"),
      ("time", JsVal.str "9:45")]⟩

/-- POST /events for user 1, date and time written without padding, neither
description nor link. -/
def exampleCreate : Request :=
  ⟨Method.post, ["events"], [],
    some [("userId", JsVal.str "1"), ("title", JsVal.str "Retro"),
      ("date", JsVal.str "2024-4-5"), ("time", JsVal.str "9:05")]⟩

/-- GET /events/4. -/
def exampleGet : Request := ⟨Method.get, ["events", "4"], [], some []⟩

/-! ## Properties of programs -/

/-- The message a handler sends when a statement fails. -/
def failureMessage : Stmt → String
  | Stmt.selectUsers _ => "Database query failed"
  | Stmt.selectEvents _ => "Database query failed"
  | Stmt.write (Write.insertUser _ _ _) => "Failed to register user"
  | Stmt.write (Write.insertEvent _ _ _ _ _ _) => "Failed to create event"
  | Stmt.write (Write.updateEvent _ _ _ _ _ _) => "Failed to update event"
  | Stmt.write (Write.deleteEvent _) => "Failed to delete event"

/-- A program that sends a response and ends there on every path on which no
exception escapes, and answers the failure of a statement with status 500 and
the message of that statement, whatever the error is. -/
def Guarded : Prog → Prop
  | Prog.send _ _ next => next = Prog.done
  | Prog.done => False
  | Prog.throw _ => True
  | Prog.selectUsers v k =>
    (∀ e, k (Except.error e) = reply 500 (Body.error (failureMessage (Stmt.selectUsers v)))) ∧
      ∀ rows, Guarded (k (Except.ok rows))
  | Prog.selectEvents q k =>
    (∀ e, k (Except.error e) = reply 500 (Body.error (failureMessage (Stmt.selectEvents q)))) ∧
      ∀ rows, Guarded (k (Except.ok rows))
  | Prog.write w k =>
    (∀ e, k (Except.error e) = reply 500 (Body.error (failureMessage (Stmt.write w)))) ∧
      ∀ h, Guarded (k (Except.ok h))

/-- Two replies that differ at most in the error value. -/
def SameButError {α : Type} : Except DbError α → Except DbError α → Prop
  | Except.ok a, Except.ok b => a = b
  | Except.error _, Except.error _ => True
  | _, _ => False

/-- Two stores that behave alike except for the error values they report. -/
def Db.Alike {σ : Type} (d d2 : Db σ) : Prop :=
  (∀ v s, SameButError (d.selectUsers v s) (d2.selectUsers v s)) ∧
  (∀ q s, SameButError (d.selectEvents q s) (d2.selectEvents q s)) ∧
  (∀ w s, SameButError (d.write w s) (d2.write w s))

/-- The same store reporting `g e` wherever it reported the error `e`. -/
def Db.mapError {σ : Type} (g : DbError → DbError) (d : Db σ) : Db σ where
  selectUsers v s := (d.selectUsers v s).mapError g
  selectEvents q s := (d.selectEvents q s).mapError g
  write w s := (d.write w s).mapError g

/-- The laws of a store that keeps text as it is given: a string bound to a
text column is stored unchanged, and a string compares equal to itself. -/
structure Codec.Faithful (C : Codec) : Prop where
  text_str : ∀ s t, C.text (JsVal.str s) = Except.ok t → t = s
  textEq_self : ∀ s f, C.textEq (JsVal.str s) = Except.ok f → f s = true

/-- The route a request is for, with the parameter of the path. -/
inductive Route where
  | login
  | listEvents
  | createEvent
  | getEvent (id : String)
  | updateEvent (id : String)
  | deleteEvent (id : String)
deriving DecidableEq, Repr

/-- The table of routes: which of the six a method and a path select, a `HEAD`
request counting as `GET`. -/
def matchRoute (m : Method) (path : List String) : Option Route :=
  if matchesLiteral "login" path then
    (if m = Method.post then some Route.login else none)
  else if matchesLiteral "events" path then
    (if m = Method.get ∨ m = Method.head then some Route.listEvents
     else if m = Method.post then some Route.createEvent else none)
  else
    match matchEventId path with
    | some id =>
      if m = Method.get ∨ m = Method.head then some (Route.getEvent id)
      else if m = Method.put then some (Route.updateEvent id)
      else if m = Method.delete then some (Route.deleteEvent id)
      else none
    | none => none

/-- The handler registered for a route. -/
def Route.handler (req : Request) (body : Fields) : Route → Prog
  | Route.login => Kickoff.login body
  | Route.listEvents => Kickoff.listEvents req.query
  | Route.createEvent => Kickoff.createEvent body
  | Route.getEvent id => Kickoff.getEvent id
  | Route.updateEvent id => Kickoff.updateEvent id body
  | Route.deleteEvent id => Kickoff.deleteEvent id

/-! ## Dispatch -/

@[simp] theorem run_reply {σ : Type} (db : Db σ) (status : Nat) (body : Body) (s : σ) :
    run db (reply status body) s = ⟨[(status, body)], false, [], s⟩ := rfl

theorem literal_not_param (name : String) (path : List String)
    (h : matchesLiteral name path = true) : matchEventId path = none := by
  unfold matchesLiteral at h
  unfold matchEventId
  split at h
  · rename_i a heq
    rw [heq]
  · exact absurd h (by simp)

theorem login_not_events (path : List String)
    (h : matchesLiteral "login" path = true) : matchesLiteral "events" path = false := by
  unfold matchesLiteral at h ⊢
  split at h
  · rename_i a heq
    simp only [beq_iff_eq] at h
    simp [h]
  · exact absurd h (by simp)

/-- Dispatch follows the table of routes: the handler of the route that
matches, the fallback when none does. -/
theorem routes_eq (req : Request) (body : Fields) :
    routes req body =
      match matchRoute req.method req.path with
      | some r => r.handler req body
      | none => notFound := by
  unfold routes matchRoute
  by_cases hl : matchesLiteral "login" req.path = true
  · have he := login_not_events _ hl
    have hid := literal_not_param _ _ hl
    cases hm : req.method <;> simp [takes, hl, he, hid, Route.handler]
  · by_cases he : matchesLiteral "events" req.path = true
    · have hid := literal_not_param _ _ he
      cases hm : req.method <;> simp [takes, hl, he, hid, Route.handler]
    · cases hid : matchEventId req.path <;>
        cases hm : req.method <;> simp [takes, hl, he, Route.handler]

/-! ## Guarded programs -/

theorem guarded_failure {σ : Type} (db : Db σ) (p : Prog) :
    ∀ (s : σ), Guarded p → ∀ q, (q, false) ∈ (run db p s).trace →
      (run db p s).responses = [(500, Body.error (failureMessage q))] ∧
        (run db p s).threw = false := by
  induction p with
  | send status body next _ =>
    intro s hg q hq
    simp only [Guarded] at hg
    subst hg
    simp [run] at hq
  | done => intro s hg; exact absurd hg (by simp [Guarded])
  | throw e => intro s _ q hq; simp [run] at hq
  | selectUsers v k ih =>
    intro s hg q hq
    obtain ⟨herr, hok⟩ := hg
    cases hrep : db.selectUsers v s with
    | error e =>
      simp only [run, hrep, herr, run_reply, succeeded, List.mem_singleton, Prod.mk.injEq,
        and_true] at hq ⊢
      subst hq
      simp
    | ok rows =>
      simp only [run, hrep, succeeded, List.mem_cons, Prod.mk.injEq] at hq ⊢
      rcases hq with ⟨_, h⟩ | h
      · exact absurd h (by simp)
      · exact ih _ s (hok rows) q h
  | selectEvents v k ih =>
    intro s hg q hq
    obtain ⟨herr, hok⟩ := hg
    cases hrep : db.selectEvents v s with
    | error e =>
      simp only [run, hrep, herr, run_reply, succeeded, List.mem_singleton, Prod.mk.injEq,
        and_true] at hq ⊢
      subst hq
      simp
    | ok rows =>
      simp only [run, hrep, succeeded, List.mem_cons, Prod.mk.injEq] at hq ⊢
      rcases hq with ⟨_, h⟩ | h
      · exact absurd h (by simp)
      · exact ih _ s (hok rows) q h
  | write w k ih =>
    intro s hg q hq
    obtain ⟨herr, hok⟩ := hg
    cases hrep : db.write w s with
    | error e =>
      simp only [run, hrep, headerOf, storeAfter, herr, run_reply, succeeded,
        List.mem_singleton, Prod.mk.injEq, and_true] at hq ⊢
      subst hq
      simp
    | ok r =>
      obtain ⟨h, s2⟩ := r
      simp only [run, hrep, headerOf, storeAfter, succeeded, List.mem_cons,
        Prod.mk.injEq] at hq ⊢
      rcases hq with ⟨_, h⟩ | h
      · exact absurd h (by simp)
      · exact ih _ s2 (hok _) q h

theorem guarded_alike {σ : Type} (d d2 : Db σ) (hA : d.Alike d2) (p : Prog) :
    ∀ (s : σ), Guarded p → run d p s = run d2 p s := by
  obtain ⟨hu, he, hw⟩ := hA
  induction p with
  | send status body next _ =>
    intro s hg
    simp only [Guarded] at hg
    subst hg
    simp [run]
  | done => intro s hg; exact absurd hg (by simp [Guarded])
  | throw e => intro s _; simp [run]
  | selectUsers v k ih =>
    intro s hg
    obtain ⟨herr, hok⟩ := hg
    have h := hu v s
    cases h1 : d.selectUsers v s <;> cases h2 : d2.selectUsers v s <;>
      simp only [h1, h2, SameButError] at h
    · simp [run, h1, h2, herr, succeeded]
    · subst h
      simp [run, h1, h2, succeeded, ih _ s (hok _)]
  | selectEvents v k ih =>
    intro s hg
    obtain ⟨herr, hok⟩ := hg
    have h := he v s
    cases h1 : d.selectEvents v s <;> cases h2 : d2.selectEvents v s <;>
      simp only [h1, h2, SameButError] at h
    · simp [run, h1, h2, herr, succeeded]
    · subst h
      simp [run, h1, h2, succeeded, ih _ s (hok _)]
  | write w k ih =>
    intro s hg
    obtain ⟨herr, hok⟩ := hg
    have h := hw w s
    cases h1 : d.write w s <;> cases h2 : d2.write w s <;>
      simp only [h1, h2, SameButError] at h
    · simp [run, h1, h2, herr, headerOf, storeAfter, succeeded]
    · subst h
      rename_i r
      obtain ⟨hd, s2⟩ := r
      simp [run, h1, h2, headerOf, storeAfter, succeeded, ih _ s2 (hok _)]

/-- Without an exception a guarded program sends exactly one response; with
one it sends none. -/
theorem guarded_responses {σ : Type} (db : Db σ) (p : Prog) :
    ∀ (s : σ), Guarded p →
      ((run db p s).threw = false → ∃ r, (run db p s).responses = [r]) ∧
      ((run db p s).threw = true → (run db p s).responses = []) := by
  induction p with
  | send status body next _ =>
    intro s hg
    simp only [Guarded] at hg
    subst hg
    simp [run]
  | done => intro s hg; exact absurd hg (by simp [Guarded])
  | throw e => intro s _; simp [run]
  | selectUsers v k ih => intro s hg; simpa [run] using ih _ s (by
      cases h : db.selectUsers v s
      · rw [hg.1]; simp [Guarded, reply]
      · exact hg.2 _)
  | selectEvents v k ih => intro s hg; simpa [run] using ih _ s (by
      cases h : db.selectEvents v s
      · rw [hg.1]; simp [Guarded, reply]
      · exact hg.2 _)
  | write w k ih =>
    intro s hg
    cases h : db.write w s with
    | error e => simp [run, h, hg.1, headerOf, storeAfter]
    | ok r =>
      obtain ⟨hd, s2⟩ := r
      simpa [run, h, headerOf, storeAfter] using ih _ s2 (hg.2 _)

/-! ## The handlers are guarded -/

theorem login_guarded (body : Fields) : Guarded (login body) := by
  unfold login
  simp only []
  split
  · simp [Guarded, reply]
  · refine ⟨fun e => rfl, fun rows => ?_⟩
    cases rows with
    | cons row rest => simp [Guarded, reply]
    | nil =>
      cases field body "email" <;> simp only [Guarded]
      refine ⟨fun e => rfl, fun h => ?_⟩
      simp [Guarded, reply]

theorem listEvents_guarded (query : Fields) : Guarded (listEvents query) := by
  unfold listEvents
  simp only []
  split
  · simp [Guarded, reply]
  · exact ⟨fun e => rfl, fun rows => by simp [Guarded, reply]⟩

theorem createEvent_guarded (body : Fields) : Guarded (createEvent body) := by
  unfold createEvent
  simp only []
  split
  · simp [Guarded, reply]
  · exact ⟨fun e => rfl, fun rows => by simp [Guarded, reply]⟩

theorem updateEvent_guarded (id : String) (body : Fields) : Guarded (updateEvent id body) := by
  unfold updateEvent
  simp only []
  split
  · simp [Guarded, reply]
  · refine ⟨fun e => rfl, fun h => ?_⟩
    simp only []
    split <;> simp [Guarded, reply]

theorem deleteEvent_guarded (id : String) : Guarded (deleteEvent id) := by
  unfold deleteEvent
  refine ⟨fun e => rfl, fun h => ?_⟩
  simp only []
  split <;> simp [Guarded, reply]

theorem getEvent_guarded (id : String) : Guarded (getEvent id) := by
  unfold getEvent
  refine ⟨fun e => rfl, fun rows => ?_⟩
  cases rows <;> simp [Guarded, reply]

theorem handle_guarded (req : Request) : Guarded (handle req) := by
  unfold handle
  split
  · simp [Guarded, reply]
  · split
    · simp [Guarded, reply]
    · rename_i body _
      rw [routes_eq]
      split
      · rename_i r _
        cases r
        · exact login_guarded _
        · exact listEvents_guarded _
        · exact createEvent_guarded _
        · exact getEvent_guarded _
        · exact updateEvent_guarded _ _
        · exact deleteEvent_guarded _
      · simp [Guarded, notFound, reply]

/-! ## Validation, storage failures, unmatched routes -/

theorem handle_of_route (req : Request) (body : Fields) (r : Route)
    (hm : req.method ≠ Method.options) (hb : req.body = some body)
    (hr : matchRoute req.method req.path = some r) : handle req = r.handler req body := by
  unfold handle
  rw [if_neg hm, hb]
  simp only []
  rw [routes_eq, hr]

theorem handle_of_no_route (req : Request) (body : Fields)
    (hm : req.method ≠ Method.options) (hb : req.body = some body)
    (hr : matchRoute req.method req.path = none) : handle req = notFound := by
  unfold handle
  rw [if_neg hm, hb]
  simp only []
  rw [routes_eq, hr]

theorem alike_mapError {σ : Type} (g : DbError → DbError) (d : Db σ) :
    d.Alike (d.mapError g) := by
  refine ⟨fun v s => ?_, fun q s => ?_, fun w s => ?_⟩
  · cases h : d.selectUsers v s <;> simp [Db.mapError, h, Except.mapError, SameButError]
  · cases h : d.selectEvents q s <;> simp [Db.mapError, h, Except.mapError, SameButError]
  · cases h : d.write w s <;> simp [Db.mapError, h, Except.mapError, SameButError]

/-- C3: a request to POST /login, GET /events, POST /events or PUT /events/:id
in which a required field is missing, empty or otherwise falsy is answered
with status 400 and an error body, once; no statement reaches the store and
the store is as before. -/
theorem missing_field_rejected {σ : Type} (db : Db σ) (s : σ) (req : Request) (body : Fields)
    (hb : req.body = some body) :
    (req.method = Method.post → matchesLiteral "login" req.path = true →
      ((field body "firebaseUid").truthy = false ∨ (field body "email").truthy = false) →
      run db (handle req) s =
        ⟨[(400, Body.error "Missing firebaseUid or email")], false, [], s⟩) ∧
    (req.method = Method.get → matchesLiteral "events" req.path = true →
      (field req.query "userId").truthy = false →
      run db (handle req) s = ⟨[(400, Body.error "Missing userId")], false, [], s⟩) ∧
    (req.method = Method.post → matchesLiteral "events" req.path = true →
      ((field body "userId").truthy = false ∨ (field body "title").truthy = false ∨
        (field body "date").truthy = false ∨ (field body "time").truthy = false) →
      run db (handle req) s = ⟨[(400, Body.error "Missing required fields")], false, [], s⟩) ∧
    (∀ id, req.method = Method.put → matchEventId req.path = some id →
      ((field body "title").truthy = false ∨ (field body "date").truthy = false ∨
        (field body "time").truthy = false) →
      run db (handle req) s = ⟨[(400, Body.error "Missing required fields")], false, [], s⟩) := by
  refine ⟨fun hm hp hf => ?_, fun hm hp hf => ?_, fun hm hp hf => ?_, fun id hm hp hf => ?_⟩
  · have hr : matchRoute req.method req.path = some Route.login := by
      simp [matchRoute, hp, hm]
    rw [handle_of_route req body _ (by simp [hm]) hb hr]
    rcases hf with h | h <;> simp [Route.handler, login, h]
  · have hl : matchesLiteral "login" req.path = false := by
      cases h : matchesLiteral "login" req.path
      · rfl
      · rw [login_not_events _ h] at hp; exact absurd hp (by simp)
    have hr : matchRoute req.method req.path = some Route.listEvents := by
      simp [matchRoute, hp, hm, hl]
    rw [handle_of_route req body _ (by simp [hm]) hb hr]
    simp [Route.handler, listEvents, hf]
  · have hl : matchesLiteral "login" req.path = false := by
      cases h : matchesLiteral "login" req.path
      · rfl
      · rw [login_not_events _ h] at hp; exact absurd hp (by simp)
    have hr : matchRoute req.method req.path = some Route.createEvent := by
      simp [matchRoute, hp, hm, hl]
    rw [handle_of_route req body _ (by simp [hm]) hb hr]
    rcases hf with h | h | h | h <;> simp [Route.handler, createEvent, h]
  · have hl : matchesLiteral "login" req.path = false := by
      cases h : matchesLiteral "login" req.path
      · rfl
      · rw [literal_not_param _ _ h] at hp; exact absurd hp (by simp)
    have he : matchesLiteral "events" req.path = false := by
      cases h : matchesLiteral "events" req.path
      · rfl
      · rw [literal_not_param _ _ h] at hp; exact absurd hp (by simp)
    have hr : matchRoute req.method req.path = some (Route.updateEvent id) := by
      simp [matchRoute, hp, hm, hl, he]
    rw [handle_of_route req body _ (by simp [hm]) hb hr]
    rcases hf with h | h | h <;> simp [Route.handler, updateEvent, h]

/-- C3 at a request: POST /events without a title writes nothing. -/
theorem missing_field_rejected_witness :
    run plainCodec.db
        (handle ⟨Method.post, ["events"], [],
          some [("userId", JsVal.str "1"), ("date", JsVal.str "2024-03-01"),
            ("time", JsVal.str "09:30")]⟩) emptyStorage =
      ⟨[(400, Body.error "Missing required fields")], false, [], emptyStorage⟩ :=
  (missing_field_rejected plainCodec.db emptyStorage
    ⟨Method.post, ["events"], [],
      some [("userId", JsVal.str "1"), ("date", JsVal.str "2024-03-01"),
        ("time", JsVal.str "09:30")]⟩ _ rfl).2.2.1 rfl (by decide) (Or.inr (Or.inl rfl))

/-- C8: when a statement fails the response is status 500 with the message of
that statement, a constant of the source, and no exception escapes; and two
stores that differ only in the error values they report lead to the same
run, response included. -/
theorem storage_failure_is_generic {σ : Type} (d d2 : Db σ) (req : Request) (s : σ) :
    (∀ q, (q, false) ∈ (run d (handle req) s).trace →
      (run d (handle req) s).responses = [(500, Body.error (failureMessage q))] ∧
        (run d (handle req) s).threw = false) ∧
    (d.Alike d2 → run d (handle req) s = run d2 (handle req) s) :=
  ⟨guarded_failure d _ s (handle_guarded req),
    fun hA => guarded_alike d d2 hA _ s (handle_guarded req)⟩

/-- C8 at a request: an insert the store rejects is answered with the message
of the route, and a store reporting another error gives the same run. -/
theorem storage_failure_is_generic_witness :
    (run plainCodec.db
        (handle ⟨Method.post, ["events"], [],
          some [("userId", JsVal.str "1"), ("title", JsVal.str "Kickoff"),
            ("date", JsVal.str "soon"), ("time", JsVal.str "09:30")]⟩)
        emptyStorage).responses = [(500, Body.error "Failed to create event")] ∧
    run plainCodec.db
        (handle ⟨Method.post, ["events"], [],
          some [("userId", JsVal.str "1"), ("title", JsVal.str "Kickoff"),
            ("date", JsVal.str "soon"), ("time", JsVal.str "09:30")]⟩) emptyStorage =
      run (plainCodec.db.mapError fun _ => ⟨"Connection lost", "PROTOCOL_CONNECTION_LOST", "at Socket"⟩)
        (handle ⟨Method.post, ["events"], [],
          some [("userId", JsVal.str "1"), ("title", JsVal.str "Kickoff"),
            ("date", JsVal.str "soon"), ("time", JsVal.str "09:30")]⟩) emptyStorage :=
  ⟨((storage_failure_is_generic plainCodec.db plainCodec.db _ emptyStorage).1
      (Stmt.write (Write.insertEvent (JsVal.str "1") (JsVal.str "Kickoff") (JsVal.str "soon")
        (JsVal.str "09:30") JsVal.undefined JsVal.undefined))
      (List.Mem.head _)).1,
    (storage_failure_is_generic plainCodec.db _ _ emptyStorage).2 (alike_mapError _ _)⟩

/-- C9, as stated, fails: OPTIONS /events/1 matches none of the six routes,
yet the CORS middleware answers it with status 204 and no body before the
fallback is reached. -/
theorem options_request_not_route_not_found :
    matchRoute Method.options ["events", "1"] = none ∧
    (run plainCodec.db (handle ⟨Method.options, ["events", "1"], [], some []⟩)
      emptyStorage).responses = [(204, Body.empty)] ∧
    (run plainCodec.db (handle ⟨Method.options, ["events", "1"], [], some []⟩)
      emptyStorage).responses ≠ [(404, Body.error "Route not found")] := by
  decide

theorem login_never_route_not_found {σ : Type} (db : Db σ) (s : σ) (body : Fields) :
    (404, Body.error "Route not found") ∉ (run db (login body) s).responses := by
  unfold login
  simp only []
  split
  · simp
  · simp only [run]
    cases db.selectUsers (field body "firebaseUid") s with
    | error e => simp
    | ok rows =>
      cases rows with
      | cons row rest => simp
      | nil =>
        cases field body "email" <;> simp only [run] <;> try simp
        rename_i e
        cases db.write (Write.insertUser (field body "firebaseUid") (JsVal.str e)
          (JsVal.str (beforeAt e))) s with
        | error e => simp [headerOf, storeAfter]
        | ok r => obtain ⟨h, s2⟩ := r; simp [headerOf, storeAfter]

theorem handler_never_route_not_found {σ : Type} (db : Db σ) (s : σ) (req : Request)
    (body : Fields) (r : Route) :
    (404, Body.error "Route not found") ∉ (run db (r.handler req body) s).responses := by
  cases r with
  | login => exact login_never_route_not_found db s body
  | listEvents =>
    simp only [Route.handler, listEvents]
    split
    · simp
    · simp only [run]
      cases db.selectEvents (EventQuery.byUser (field req.query "userId")) s <;> simp
  | createEvent =>
    simp only [Route.handler, createEvent]
    split
    · simp
    · simp only [run]
      cases db.write (Write.insertEvent (field body "userId") (field body "title")
        (field body "date") (field body "time") (field body "description")
        (field body "link")) s with
      | error e => simp [headerOf, storeAfter]
      | ok r => obtain ⟨h, s2⟩ := r; simp [headerOf, storeAfter]
  | getEvent id =>
    simp only [Route.handler, getEvent, run]
    cases db.selectEvents (EventQuery.byId (JsVal.str id)) s with
    | error e => simp
    | ok rows => cases rows <;> simp
  | updateEvent id =>
    simp only [Route.handler, updateEvent]
    split
    · simp
    · simp only [run]
      cases db.write (Write.updateEvent (field body "title") (field body "date")
        (field body "time") (field body "description") (field body "link")
        (JsVal.str id)) s with
      | error e => simp [headerOf, storeAfter]
      | ok r =>
        obtain ⟨h, s2⟩ := r
        simp only [headerOf, storeAfter]
        split <;> simp
  | deleteEvent id =>
    simp only [Route.handler, deleteEvent, run]
    cases db.write (Write.deleteEvent (JsVal.str id)) s with
    | error e => simp [headerOf, storeAfter]
    | ok r =>
      obtain ⟨h, s2⟩ := r
      simp only [headerOf, storeAfter]
      split <;> simp

/-- A HEAD request for /events is none of the six (method, path) pairs, yet the
framework gives it to the handler of GET /events, which queries the store. -/
theorem head_events_runs_list_handler :
    (run plainCodec.db
      (handle ⟨Method.head, ["events"], [("userId", JsVal.str "1")], some []⟩)
      exampleStorage).trace.length = 1 := by
  decide

/-- C9, amended: a request that is not an OPTIONS request, whose body the JSON
middleware accepted and which matches none of the six routes (HEAD counting as
GET) is answered once, with status 404 and the body "Route not found", a HEAD
request with status 404 and no body; no exception escapes, no statement
reaches the store and the store is as before. A request that matches a route
is handled by the handler of that route and never answered "Route not
found". -/
theorem unmatched_request_falls_back {σ : Type} (db : Db σ) (s : σ) (req : Request)
    (body : Fields) (hm : req.method ≠ Method.options) (hb : req.body = some body) :
    (matchRoute req.method req.path = none →
      (run db (handle req) s).responses.map (sent req) =
          [(404, if req.method = Method.head then Body.empty
            else Body.error "Route not found")] ∧
        (run db (handle req) s).threw = false ∧
        (run db (handle req) s).trace = [] ∧
        (run db (handle req) s).storage = s) ∧
    (∀ r, matchRoute req.method req.path = some r →
      handle req = r.handler req body ∧
        (404, Body.error "Route not found") ∉
          (run db (handle req) s).responses.map (sent req)) := by
  refine ⟨fun hr => ?_, fun r hr => ?_⟩
  · rw [handle_of_no_route req body hm hb hr]
    refine ⟨?_, rfl, rfl, rfl⟩
    simp only [notFound, run_reply, List.map_cons, List.map_nil, sent]
    split <;> rfl
  · rw [handle_of_route req body r hm hb hr]
    refine ⟨rfl, fun hmem => ?_⟩
    obtain ⟨x, hx, hsx⟩ := List.mem_map.1 hmem
    unfold sent at hsx
    split at hsx
    · simp at hsx
    · rw [hsx] at hx
      exact handler_never_route_not_found db s req body r hx

/-- C9, amended, at a request: PATCH /events/1 is answered by the fallback. -/
theorem unmatched_request_falls_back_witness :
    (run plainCodec.db (handle ⟨Method.patch, ["events", "1"], [], some []⟩)
        emptyStorage).responses.map (sent ⟨Method.patch, ["events", "1"], [], some []⟩) =
        [(404, if Method.patch = Method.head then Body.empty
          else Body.error "Route not found")] ∧
      (run plainCodec.db (handle ⟨Method.patch, ["events", "1"], [], some []⟩)
        emptyStorage).threw = false ∧
      (run plainCodec.db (handle ⟨Method.patch, ["events", "1"], [], some []⟩)
        emptyStorage).trace = [] ∧
      (run plainCodec.db (handle ⟨Method.patch, ["events", "1"], [], some []⟩)
        emptyStorage).storage = emptyStorage :=
  (unmatched_request_falls_back plainCodec.db emptyStorage
    ⟨Method.patch, ["events", "1"], [], some []⟩ [] (by decide) rfl).1 (by decide)

/-- HEAD /login matches no route and is answered with status 404 and no body. -/
theorem head_login_example :
    (run plainCodec.db (handle ⟨Method.head, ["login"], [], some []⟩)
      emptyStorage).responses.map (sent ⟨Method.head, ["login"], [], some []⟩) =
      [(404, Body.empty)] := by
  decide

/-- C10 fails on the code: POST /login with a number as email and a firebaseUid
no user has lets a TypeError escape from the callback of the lookup, and no
response is sent. -/
theorem login_number_email_throws :
    (run plainCodec.db
        (handle ⟨Method.post, ["login"], [],
          some [("firebaseUid", JsVal.str "u1"), ("email", JsVal.num 123)]⟩)
        emptyStorage).threw = true ∧
    (run plainCodec.db
        (handle ⟨Method.post, ["login"], [],
          some [("firebaseUid", JsVal.str "u1"), ("email", JsVal.num 123)]⟩)
        emptyStorage).responses = [] := by
  decide

/-- Every request, whatever the store replies: either no exception escapes and
exactly one response is sent, or one escapes and none is sent. -/
theorem one_response_or_exception {σ : Type} (db : Db σ) (s : σ) (req : Request) :
    ((run db (handle req) s).threw = false → ∃ r, (run db (handle req) s).responses = [r]) ∧
    ((run db (handle req) s).threw = true → (run db (handle req) s).responses = []) :=
  guarded_responses db _ s (handle_guarded req)

/-- An exception escapes from the login handler whenever the email is present
but not a string and the lookup finds no user. -/
theorem login_throws_on_non_string_email {σ : Type} (db : Db σ) (s : σ) (body : Fields)
    (hu : (field body "firebaseUid").truthy = true) (he : (field body "email").truthy = true)
    (hs : ∀ e, field body "email" ≠ JsVal.str e)
    (hnone : db.selectUsers (field body "firebaseUid") s = Except.ok []) :
    run db (login body) s =
      ⟨[], true, [(Stmt.selectUsers (field body "firebaseUid"), true)], s⟩ := by
  unfold login
  simp only [hu, he, Bool.not_true, Bool.or_self, Bool.false_eq_true, ↓reduceIte, run, hnone]
  cases h : field body "email" <;> simp_all [run, succeeded]

/-! ## Login against the relational store -/

theorem handle_login (req : Request) (body : Fields) (hm : req.method = Method.post)
    (hp : matchesLiteral "login" req.path = true) (hb : req.body = some body) :
    handle req = login body :=
  handle_of_route req body Route.login (by simp [hm]) hb (by simp [matchRoute, hp, hm])

/-- The login handler on a lookup that finds a user. -/
theorem run_login_found (C : Codec) (s : Storage) (body : Fields) (f : String → Bool)
    (hu : (field body "firebaseUid").truthy = true) (he : (field body "email").truthy = true)
    (hf : C.textEq (field body "firebaseUid") = Except.ok f)
    (u : User) (rest : List User) (hrows : s.users.filter (fun u => f u.firebase_uid) = u :: rest) :
    run C.db (login body) s =
      ⟨[(200, Body.user u.id u.username)], false,
        [(Stmt.selectUsers (field body "firebaseUid"), true)], s⟩ := by
  unfold login
  simp [hu, he, run, Codec.db, Codec.selectUsers, hf, hrows, succeeded]

/-- The login handler on a lookup that finds no user, for a string email. -/
theorem run_login_new (C : Codec) (s : Storage) (body : Fields) (f : String → Bool) (e : String)
    (hu : (field body "firebaseUid").truthy = true) (he : field body "email" = JsVal.str e)
    (hne : e ≠ "")
    (hf : C.textEq (field body "firebaseUid") = Except.ok f)
    (hrows : s.users.filter (fun u => f u.firebase_uid) = []) :
    (∃ err, C.userValues (field body "firebaseUid") (JsVal.str e) (JsVal.str (beforeAt e)) =
        Except.error err ∧
      (run C.db (login body) s).responses = [(500, Body.error "Failed to register user")] ∧
      (run C.db (login body) s).storage = s) ∨
    (∃ uid em name, C.userValues (field body "firebaseUid") (JsVal.str e)
        (JsVal.str (beforeAt e)) = Except.ok (uid, em, name) ∧
      (run C.db (login body) s).responses = [(200, Body.user s.nextUserId (beforeAt e))] ∧
      (run C.db (login body) s).storage =
        ⟨s.users ++ [⟨s.nextUserId, uid, em, name⟩], s.events, s.nextUserId + 1,
          s.nextEventId⟩) := by
  have he2 : (JsVal.str e).truthy = true := by simp [JsVal.truthy, hne]
  cases hv : C.userValues (field body "firebaseUid") (JsVal.str e) (JsVal.str (beforeAt e)) with
  | error err =>
    left
    refine ⟨err, rfl, ?_, ?_⟩ <;>
      simp [login, hu, he, he2, run, Codec.db, Codec.selectUsers, hf, hrows,
        Codec.write, hv, headerOf, storeAfter, succeeded]
  | ok v =>
    obtain ⟨uid, em, name⟩ := v
    right
    refine ⟨uid, em, name, rfl, ?_, ?_⟩ <;>
      simp [login, hu, he, he2, run, Codec.db, Codec.selectUsers, hf, hrows,
        Codec.write, hv, headerOf, storeAfter, succeeded]

theorem userValues_ok (C : Codec) (hC : C.Faithful) (v : JsVal) (e n uid em name : String)
    (h : C.userValues v (JsVal.str e) (JsVal.str n) = Except.ok (uid, em, name)) :
    C.text v = Except.ok uid ∧ em = e ∧ name = n := by
  unfold Codec.userValues at h
  cases h1 : C.text v with
  | error err => simp [h1, bind, Except.bind] at h
  | ok a =>
    cases h2 : C.text (JsVal.str e) with
    | error err => simp [h1, h2, bind, Except.bind] at h
    | ok b =>
      cases h3 : C.text (JsVal.str n) with
      | error err => simp [h1, h2, h3, bind, Except.bind] at h
      | ok c =>
        simp [h1, h2, h3, bind, Except.bind, pure, Except.pure] at h
        obtain ⟨ha, hb, hc⟩ := h
        subst ha hb hc
        exact ⟨rfl, hC.text_str _ _ h2, hC.text_str _ _ h3⟩

theorem beforeAt_eq_takeWhile (e : String) :
    beforeAt e = String.mk (e.data.takeWhile fun c => c != '@') := by
  unfold beforeAt
  congr 1
  induction e.data with
  | nil => rfl
  | cons c cs ih =>
    by_cases hc : c = '@'
    · simp [beforeAtChars, hc]
    · have hc2 : (c != '@') = true := by simp [hc]
      simp [beforeAtChars, hc, List.takeWhile, ih, hc2]

/-- C2: on a store that keeps text as given, a successful POST /login with a
string email and a firebaseUid no stored user has returns and stores, in one
new row, the username made of the characters of the email before its first
`@` (the whole email when it has none). -/
theorem first_login_username (C : Codec) (hC : C.Faithful) (s : Storage) (req : Request)
    (body : Fields) (e : String) (f : String → Bool) (b : Body)
    (hm : req.method = Method.post) (hp : matchesLiteral "login" req.path = true)
    (hb : req.body = some body) (he : field body "email" = JsVal.str e)
    (hf : C.textEq (field body "firebaseUid") = Except.ok f)
    (hnew : ∀ u ∈ s.users, f u.firebase_uid = false)
    (hok : (run C.db (handle req) s).responses = [(200, b)]) :
    b = Body.user s.nextUserId (beforeAt e) ∧
    beforeAt e = String.mk (e.data.takeWhile fun c => c != '@') ∧
    ∃ uid, (run C.db (handle req) s).storage =
      ⟨s.users ++ [⟨s.nextUserId, uid, e, beforeAt e⟩], s.events, s.nextUserId + 1,
        s.nextEventId⟩ := by
  rw [handle_login req body hm hp hb] at hok ⊢
  have hrows : s.users.filter (fun u => f u.firebase_uid) = [] := by
    rw [List.filter_eq_nil_iff]
    intro u hu
    simp [hnew u hu]
  have hu : (field body "firebaseUid").truthy = true := by
    cases h : (field body "firebaseUid").truthy
    · simp [login, h] at hok
    · rfl
  have hne : e ≠ "" := by
    intro h0
    subst h0
    simp [login, he, JsVal.truthy] at hok
  refine ⟨?_, ?_, ?_⟩
  · rcases run_login_new C s body f e hu he hne hf hrows with ⟨err, _, hr, _⟩ | ⟨uid, em, name, _, hr, _⟩
    · rw [hr] at hok; simp at hok
    · rw [hr] at hok; simp at hok; exact hok.symm
  · exact beforeAt_eq_takeWhile e
  · rcases run_login_new C s body f e hu he hne hf hrows with ⟨err, _, hr, _⟩ | ⟨uid, em, name, hv, _, hst⟩
    · rw [hr] at hok; simp at hok
    · obtain ⟨_, h2, h3⟩ := userValues_ok C hC _ _ _ _ _ _ hv
      subst h2 h3
      exact ⟨uid, hst⟩

theorem plainCodec_faithful : plainCodec.Faithful where
  text_str := by
    intro s t h
    simp only [plainCodec, Except.ok.injEq] at h
    exact h.symm
  textEq_self := by
    intro s f h
    simp only [plainCodec, Except.ok.injEq] at h
    subst h
    simp

/-- C2 at a request: the first login of jane.doe@example.com. -/
theorem first_login_username_witness :
    Body.user 1 "jane.doe" =
      Body.user emptyStorage.nextUserId (beforeAt "jane.doe@example.com") ∧
    beforeAt "jane.doe@example.com" =
      String.mk ("jane.doe@example.com".data.takeWhile fun c => c != '@') ∧
    ∃ uid, (run plainCodec.db
        (handle ⟨Method.post, ["login"], [],
          some [("firebaseUid", JsVal.str "u1"),
            ("email", JsVal.str "jane.doe@example.com")]⟩) emptyStorage).storage =
      ⟨emptyStorage.users ++
          [⟨emptyStorage.nextUserId, uid, "jane.doe@example.com",
            beforeAt "jane.doe@example.com"⟩],
        emptyStorage.events, emptyStorage.nextUserId + 1, emptyStorage.nextEventId⟩ :=
  first_login_username plainCodec plainCodec_faithful emptyStorage
    ⟨Method.post, ["login"], [],
      some [("firebaseUid", JsVal.str "u1"), ("email", JsVal.str "jane.doe@example.com")]⟩
    [("firebaseUid", JsVal.str "u1"), ("email", JsVal.str "jane.doe@example.com")]
    "jane.doe@example.com" (fun column => column == "u1") (Body.user 1 "jane.doe")
    rfl (by decide) rfl rfl rfl (by simp [emptyStorage]) (by decide)

/-- C1: on a store that keeps text as given, when POST /login with a
firebaseUid succeeds, a following POST /login with the same firebaseUid and any
non-empty email is answered with the same body (same id, same username) and
leaves the store, the users table included, as the first call left it. -/
theorem login_twice_same_identity (C : Codec) (hC : C.Faithful) (s : Storage)
    (r1 r2 : Request) (b1 b2 : Fields) (uid e1 e2 : String) (b : Body)
    (hm1 : r1.method = Method.post) (hp1 : matchesLiteral "login" r1.path = true)
    (hb1 : r1.body = some b1)
    (hm2 : r2.method = Method.post) (hp2 : matchesLiteral "login" r2.path = true)
    (hb2 : r2.body = some b2)
    (hu1 : field b1 "firebaseUid" = JsVal.str uid) (he1 : field b1 "email" = JsVal.str e1)
    (hu2 : field b2 "firebaseUid" = JsVal.str uid) (he2 : field b2 "email" = JsVal.str e2)
    (hne : e2 ≠ "")
    (hok : (run C.db (handle r1) s).responses = [(200, b)]) :
    (run C.db (handle r2) (run C.db (handle r1) s).storage).responses = [(200, b)] ∧
    (run C.db (handle r2) (run C.db (handle r1) s).storage).storage =
      (run C.db (handle r1) s).storage := by
  rw [handle_login r1 b1 hm1 hp1 hb1] at hok ⊢
  rw [handle_login r2 b2 hm2 hp2 hb2]
  have hune : uid ≠ "" := by
    intro h0
    subst h0
    simp [login, hu1, JsVal.truthy] at hok
  have he1ne : e1 ≠ "" := by
    intro h0
    subst h0
    simp [login, he1, JsVal.truthy] at hok
  have hut1 : (field b1 "firebaseUid").truthy = true := by simp [hu1, JsVal.truthy, hune]
  have hut2 : (field b2 "firebaseUid").truthy = true := by simp [hu2, JsVal.truthy, hune]
  have het1 : (field b1 "email").truthy = true := by simp [he1, JsVal.truthy, he1ne]
  have het2 : (field b2 "email").truthy = true := by simp [he2, JsVal.truthy, hne]
  cases hf : C.textEq (JsVal.str uid) with
  | error err =>
    have hsu : (JsVal.str uid).truthy = true := by simp [JsVal.truthy, hune]
    have hse : (JsVal.str e1).truthy = true := by simp [JsVal.truthy, he1ne]
    simp [login, hu1, he1, hsu, hse, run, Codec.db, Codec.selectUsers, hf] at hok
  | ok f =>
    have hf1 : C.textEq (field b1 "firebaseUid") = Except.ok f := by rw [hu1, hf]
    have hf2 : C.textEq (field b2 "firebaseUid") = Except.ok f := by rw [hu2, hf]
    cases hrows : s.users.filter (fun u => f u.firebase_uid) with
    | cons u rest =>
      have h1 := run_login_found C s b1 f hut1 het1 hf1 u rest hrows
      rw [h1] at hok ⊢
      have h2 := run_login_found C s b2 f hut2 het2 hf2 u rest hrows
      simp only [h2]
      simp only [List.cons.injEq, Prod.mk.injEq, true_and, and_true] at hok
      exact ⟨by rw [hok], trivial⟩
    | nil =>
      rcases run_login_new C s b1 f e1 hut1 he1 he1ne hf1 hrows with
        ⟨err, _, hr, _⟩ | ⟨uidt, em, name, hv, hr, hst⟩
      · rw [hr] at hok; simp at hok
      · rw [hr] at hok
        rw [hst]
        obtain ⟨hu, _, hname⟩ := userValues_ok C hC _ _ _ _ _ _ hv
        rw [hu1] at hu
        have huid : uidt = uid := hC.text_str _ _ hu
        have hself : f uid = true := hC.textEq_self _ _ hf
        subst huid hname
        have hrows2 :
            (s.users ++ [(⟨s.nextUserId, uidt, em, beforeAt e1⟩ : User)]).filter
              (fun u : User => f u.firebase_uid) =
              [(⟨s.nextUserId, uidt, em, beforeAt e1⟩ : User)] := by
          rw [List.filter_append, hrows]
          simp [List.filter, hself]
        have h2 := run_login_found C
          ⟨s.users ++ [⟨s.nextUserId, uidt, em, beforeAt e1⟩], s.events, s.nextUserId + 1,
            s.nextEventId⟩ b2 f hut2 het2 hf2 _ [] hrows2
        simp only [h2]
        simp only [List.cons.injEq, Prod.mk.injEq, true_and, and_true] at hok
        exact ⟨by rw [← hok], trivial⟩

/-- C1 at two requests: a first login registers u1, a second login of u1 with
another email gets the same identity. -/
theorem login_twice_same_identity_witness :
    (run plainCodec.db
        (handle ⟨Method.post, ["login"], [],
          some [("firebaseUid", JsVal.str "u1"), ("email", JsVal.str "other@example.org")]⟩)
        (run plainCodec.db
          (handle ⟨Method.post, ["login"], [],
            some [("firebaseUid", JsVal.str "u1"),
              ("email", JsVal.str "jane.doe@example.com")]⟩) emptyStorage).storage).responses =
      [(200, Body.user 1 "jane.doe")] ∧
    (run plainCodec.db
        (handle ⟨Method.post, ["login"], [],
          some [("firebaseUid", JsVal.str "u1"), ("email", JsVal.str "other@example.org")]⟩)
        (run plainCodec.db
          (handle ⟨Method.post, ["login"], [],
            some [("firebaseUid", JsVal.str "u1"),
              ("email", JsVal.str "jane.doe@example.com")]⟩) emptyStorage).storage).storage =
      (run plainCodec.db
          (handle ⟨Method.post, ["login"], [],
            some [("firebaseUid", JsVal.str "u1"),
              ("email", JsVal.str "jane.doe@example.com")]⟩) emptyStorage).storage :=
  login_twice_same_identity plainCodec plainCodec_faithful emptyStorage
    ⟨Method.post, ["login"], [],
      some [("firebaseUid", JsVal.str "u1"), ("email", JsVal.str "jane.doe@example.com")]⟩
    ⟨Method.post, ["login"], [],
      some [("firebaseUid", JsVal.str "u1"), ("email", JsVal.str "other@example.org")]⟩
    _ _ "u1" "jane.doe@example.com" "other@example.org" (Body.user 1 "jane.doe")
    rfl (by decide) rfl rfl (by decide) rfl rfl rfl rfl rfl (by decide) (by decide)

/-! ## Events against the relational store -/

theorem param_not_literal (name : String) (path : List String) (id : String)
    (h : matchEventId path = some id) : matchesLiteral name path = false := by
  cases hl : matchesLiteral name path
  · rfl
  · rw [literal_not_param _ _ hl] at h
    exact absurd h (by simp)

theorem handle_getEvent (req : Request) (body : Fields) (id : String)
    (hm : req.method = Method.get) (hp : matchEventId req.path = some id)
    (hb : req.body = some body) : handle req = getEvent id :=
  handle_of_route req body (Route.getEvent id) (by simp [hm]) hb
    (by simp [matchRoute, hp, hm, param_not_literal _ _ _ hp])

theorem handle_updateEvent (req : Request) (body : Fields) (id : String)
    (hm : req.method = Method.put) (hp : matchEventId req.path = some id)
    (hb : req.body = some body) : handle req = updateEvent id body :=
  handle_of_route req body (Route.updateEvent id) (by simp [hm]) hb
    (by simp [matchRoute, hp, hm, param_not_literal _ _ _ hp])

theorem handle_deleteEvent (req : Request) (body : Fields) (id : String)
    (hm : req.method = Method.delete) (hp : matchEventId req.path = some id)
    (hb : req.body = some body) : handle req = deleteEvent id :=
  handle_of_route req body (Route.deleteEvent id) (by simp [hm]) hb
    (by simp [matchRoute, hp, hm, param_not_literal _ _ _ hp])

theorem handle_listEvents (req : Request) (body : Fields)
    (hm : req.method = Method.get) (hp : matchesLiteral "events" req.path = true)
    (hb : req.body = some body) : handle req = listEvents req.query := by
  have hl : matchesLiteral "login" req.path = false := by
    cases h : matchesLiteral "login" req.path
    · rfl
    · rw [login_not_events _ h] at hp; exact absurd hp (by simp)
  exact handle_of_route req body Route.listEvents (by simp [hm]) hb
    (by simp [matchRoute, hp, hm, hl])

theorem handle_createEvent (req : Request) (body : Fields)
    (hm : req.method = Method.post) (hp : matchesLiteral "events" req.path = true)
    (hb : req.body = some body) : handle req = createEvent body := by
  have hl : matchesLiteral "login" req.path = false := by
    cases h : matchesLiteral "login" req.path
    · rfl
    · rw [login_not_events _ h] at hp; exact absurd hp (by simp)
  exact handle_of_route req body Route.createEvent (by simp [hm]) hb
    (by simp [matchRoute, hp, hm, hl])

theorem filter_none (events : List Event) (f : Nat → Bool)
    (h : ∀ e ∈ events, f e.id = false) : events.filter (fun e => f e.id) = [] := by
  rw [List.filter_eq_nil_iff]
  intro e he
  simp [h e he]

theorem filter_not_none (events : List Event) (f : Nat → Bool)
    (h : ∀ e ∈ events, f e.id = false) : events.filter (fun e => !f e.id) = events := by
  rw [List.filter_eq_self]
  intro e he
  simp [h e he]

/-- C4, as stated, fails: PUT /events/999, an id no stored event has, with an
empty array as title (present, since an array is truthy) is answered with
status 500, not 404: the statement cannot be parsed with nothing written for
the title, and the handler answers the failure. -/
theorem put_unknown_event_array_title :
    (∀ e ∈ exampleStorage.events, e.id ≠ 999) ∧
    (JsVal.arr []).truthy = true ∧
    (run plainCodec.db
        (handle ⟨Method.put, ["events", "999"], [],
          some [("title", JsVal.arr []), ("date", JsVal.str "2024-03-01"),
            ("time", JsVal.str "09:30")]⟩) exampleStorage).responses =
      [(500, Body.error "Failed to update event")] := by
  decide

/-- An array without exactly one element as title fails the `UPDATE` on every
store, whatever rows there are. -/
theorem update_array_title_fails (C : Codec) (s : Storage) (items : List JsVal)
    (date time description link eventId : JsVal) (h : items.length ≠ 1) :
    ∃ err, C.write (Write.updateEvent (JsVal.arr items) date time description link eventId) s =
      Except.error err := by
  simp only [Codec.write]
  cases C.intEq eventId with
  | error err => exact ⟨err, rfl⟩
  | ok f => exact ⟨malformedStatement, by simp [Codec.checkValues, Codec.check, h, bind, Except.bind]⟩

/-- C4, amended: when the store matches the id of the path with no stored
event, GET and DELETE on /events/:id are each answered with status 404 and the
body "Event not found", once, after one statement, and so is PUT (title, date
and time present) whenever its statement does not fail; the store afterwards is
the store before. -/
theorem unknown_event_not_found (C : Codec) (s : Storage) (req : Request) (body : Fields)
    (id : String) (f : Nat → Bool)
    (hb : req.body = some body) (hp : matchEventId req.path = some id)
    (hf : C.intEq (JsVal.str id) = Except.ok f)
    (hnone : ∀ e ∈ s.events, f e.id = false) :
    (req.method = Method.get →
      run C.db (handle req) s =
        ⟨[(404, Body.error "Event not found")], false,
          [(Stmt.selectEvents (EventQuery.byId (JsVal.str id)), true)], s⟩) ∧
    (req.method = Method.delete →
      run C.db (handle req) s =
        ⟨[(404, Body.error "Event not found")], false,
          [(Stmt.write (Write.deleteEvent (JsVal.str id)), true)], s⟩) ∧
    (req.method = Method.put → (field body "title").truthy = true →
      (field body "date").truthy = true → (field body "time").truthy = true →
      (∀ err, C.write (Write.updateEvent (field body "title") (field body "date")
        (field body "time") (field body "description") (field body "link")
        (JsVal.str id)) s ≠ Except.error err) →
      run C.db (handle req) s =
        ⟨[(404, Body.error "Event not found")], false,
          [(Stmt.write (Write.updateEvent (field body "title") (field body "date")
            (field body "time") (field body "description") (field body "link")
            (JsVal.str id)), true)], s⟩) := by
  have h1 := filter_none s.events f hnone
  have h2 := filter_not_none s.events f hnone
  refine ⟨fun hm => ?_, fun hm => ?_, fun hm ht hd htm hrun => ?_⟩
  · rw [handle_getEvent req body id hm hp hb]
    simp [getEvent, run, Codec.db, Codec.selectEvents, hf, h1, succeeded]
  · rw [handle_deleteEvent req body id hm hp hb]
    simp [deleteEvent, run, Codec.db, Codec.write, hf, h1, h2, succeeded, headerOf, storeAfter]
  · rw [handle_updateEvent req body id hm hp hb]
    cases hcv : C.checkValues (field body "title") (field body "date") (field body "time")
        (field body "description") (field body "link") with
    | error err =>
      exact absurd (by simp [Codec.write, hf, hcv]) (hrun err)
    | ok u =>
      simp [updateEvent, ht, hd, htm, run, Codec.db, Codec.write, hf, hcv, h1, succeeded,
        headerOf, storeAfter]

/-- C4, amended, at a request: PUT /events/999 with a title, a date and a time
on a store without such an event. -/
theorem unknown_event_not_found_witness :
    run plainCodec.db
        (handle ⟨Method.put, ["events", "999"], [],
          some [("title", JsVal.str "Retro"), ("date", JsVal.str "2024-03-01"),
            ("time", JsVal.str "09:30")]⟩) exampleStorage =
      ⟨[(404, Body.error "Event not found")], false,
        [(Stmt.write (Write.updateEvent (JsVal.str "Retro") (JsVal.str "2024-03-01")
          (JsVal.str "09:30") JsVal.undefined JsVal.undefined (JsVal.str "999")), true)],
        exampleStorage⟩ :=
  (unknown_event_not_found plainCodec exampleStorage
    ⟨Method.put, ["events", "999"], [],
      some [("title", JsVal.str "Retro"), ("date", JsVal.str "2024-03-01"),
        ("time", JsVal.str "09:30")]⟩
    [("title", JsVal.str "Retro"), ("date", JsVal.str "2024-03-01"),
      ("time", JsVal.str "09:30")]
    "999" (fun column => column == 999)
    rfl (by decide) rfl (by decide)).2.2 rfl (by decide) (by decide) (by decide)
    (fun _ h => Except.noConfusion h)


/-! ## Decimal texts -/

theorem toDigitsCore_one (fuel n : Nat) (ds : List Char) (h : n < 10) :
    Nat.toDigitsCore 10 (fuel + 1) n ds = Nat.digitChar n :: ds := by
  have h0 : n / 10 = 0 := by omega
  have h1 : n % 10 = n := by omega
  simp [Nat.toDigitsCore, h0, h1]

theorem toDigitsCore_step (fuel n : Nat) (ds : List Char) (h : 10 ≤ n) :
    Nat.toDigitsCore 10 (fuel + 1) n ds =
      Nat.toDigitsCore 10 fuel (n / 10) (Nat.digitChar (n % 10) :: ds) := by
  have h0 : n / 10 ≠ 0 := by omega
  simp [Nat.toDigitsCore, h0]

theorem repr_one (n : Nat) (h : n < 10) : Nat.repr n = String.mk [Nat.digitChar n] := by
  simp [Nat.repr, Nat.toDigits, toDigitsCore_one n n [] h, List.asString]

theorem repr_two (n : Nat) (h1 : 10 ≤ n) (h2 : n < 100) :
    Nat.repr n = String.mk [Nat.digitChar (n / 10), Nat.digitChar (n % 10)] := by
  obtain ⟨k, hk⟩ : ∃ k, n = k + 1 := ⟨n - 1, by omega⟩
  simp only [Nat.repr, Nat.toDigits, List.asString]
  rw [toDigitsCore_step n n [] h1]
  conv_lhs => rw [hk]
  rw [toDigitsCore_one k _ _ (by omega), ← hk]

theorem repr_three (n : Nat) (h1 : 100 ≤ n) (h2 : n < 1000) :
    Nat.repr n =
      String.mk [Nat.digitChar (n / 100), Nat.digitChar (n / 10 % 10), Nat.digitChar (n % 10)] := by
  obtain ⟨k, hk⟩ : ∃ k, n = k + 2 := ⟨n - 2, by omega⟩
  simp only [Nat.repr, Nat.toDigits, List.asString]
  rw [toDigitsCore_step n n [] (by omega)]
  conv_lhs => rw [hk]
  rw [toDigitsCore_step (k + 1) _ _ (by omega), toDigitsCore_one k _ _ (by omega)]
  rw [← hk]
  have : n / 10 / 10 = n / 100 := by omega
  rw [this]

theorem repr_four (n : Nat) (h1 : 1000 ≤ n) (h2 : n < 10000) :
    Nat.repr n =
      String.mk [Nat.digitChar (n / 1000), Nat.digitChar (n / 100 % 10),
        Nat.digitChar (n / 10 % 10), Nat.digitChar (n % 10)] := by
  obtain ⟨k, hk⟩ : ∃ k, n = k + 3 := ⟨n - 3, by omega⟩
  simp only [Nat.repr, Nat.toDigits, List.asString]
  rw [toDigitsCore_step n n [] (by omega)]
  conv_lhs => rw [hk]
  rw [toDigitsCore_step (k + 2) _ _ (by omega), toDigitsCore_step (k + 1) _ _ (by omega),
    toDigitsCore_one k _ _ (by omega)]
  rw [← hk]
  have e1 : n / 10 / 10 / 10 = n / 1000 := by omega
  have e2 : n / 10 / 10 % 10 = n / 100 % 10 := by omega
  rw [e1, e2]

/-- Two digits, with a zero in front of a number below ten. -/
theorem zeroPad_two (n : Nat) (h : n < 100) :
    zeroPad 2 n = String.mk [Nat.digitChar (n / 10), Nat.digitChar (n % 10)] := by
  unfold zeroPad
  by_cases h1 : n < 10
  · have e0 : n / 10 = 0 := by omega
    have e1 : n % 10 = n := by omega
    rw [repr_one n h1, e0, e1]
    rfl
  · rw [repr_two n (by omega) h]
    rfl

/-- Four digits, with zeros in front of a number below a thousand. -/
theorem zeroPad_four (n : Nat) (h : n < 10000) :
    zeroPad 4 n =
      String.mk [Nat.digitChar (n / 1000), Nat.digitChar (n / 100 % 10),
        Nat.digitChar (n / 10 % 10), Nat.digitChar (n % 10)] := by
  unfold zeroPad
  by_cases h1 : n < 10
  · have e0 : n / 1000 = 0 := by omega
    have e1 : n / 100 % 10 = 0 := by omega
    have e2 : n / 10 % 10 = 0 := by omega
    have e3 : n % 10 = n := by omega
    rw [repr_one n h1, e0, e1, e2, e3]
    rfl
  · by_cases h2 : n < 100
    · have e0 : n / 1000 = 0 := by omega
      have e1 : n / 100 % 10 = 0 := by omega
      have e2 : n / 10 % 10 = n / 10 := by omega
      rw [repr_two n (by omega) h2, e0, e1, e2]
      rfl
    · by_cases h3 : n < 1000
      · have e0 : n / 1000 = 0 := by omega
        have e1 : n / 100 % 10 = n / 100 := by omega
        rw [repr_three n (by omega) h3, e0, e1]
        rfl
      · rw [repr_four n (by omega) h]
        rfl

theorem formatDate_eq_dateText (d : Date) (h : d.InRange) : formatDate d = dateText d := by
  obtain ⟨hy, hm, hd⟩ := h
  unfold formatDate dateText
  rw [zeroPad_four _ (by omega), zeroPad_two _ (by omega), zeroPad_two _ (by omega)]
  rfl

theorem formatTime_eq_timeText (t : Time) (h : t.InRange) : formatTime t = timeText t := by
  obtain ⟨hh, hm⟩ := h
  unfold formatTime timeText
  rw [zeroPad_two _ (by omega), zeroPad_two _ (by omega)]
  rfl


/-! ## The order of texts -/

theorem charsLt_irrefl (a : List Char) : charsLt a a = false := by
  induction a with
  | nil => rfl
  | cons c cs ih => simp [charsLt, ih]

theorem charsLt_trichotomy (a b : List Char) :
    charsLt a b = true ∨ a = b ∨ charsLt b a = true := by
  induction a generalizing b with
  | nil => cases b <;> simp [charsLt]
  | cons c cs ih =>
    cases b with
    | nil => simp [charsLt]
    | cons d ds =>
      rcases lt_trichotomy c d with h | h | h
      · left; simp [charsLt, h]
      · subst h
        rcases ih ds with h2 | h2 | h2
        · left; simp [charsLt, h2]
        · right; left; rw [h2]
        · right; right; simp [charsLt, h2]
      · right; right; simp [charsLt, h]

theorem charsLt_asymm (a b : List Char) (h : charsLt a b = true) : charsLt b a = false := by
  induction a generalizing b with
  | nil => cases b <;> simp [charsLt] at h ⊢
  | cons c cs ih =>
    cases b with
    | nil => simp [charsLt] at h
    | cons d ds =>
      rcases lt_trichotomy c d with hcd | hcd | hcd
      · simp [charsLt, hcd, lt_asymm hcd]
      · subst hcd
        simp only [charsLt, lt_self_iff_false, ↓reduceIte] at h ⊢
        exact ih ds h
      · simp [charsLt, hcd, lt_asymm hcd] at h

theorem charsLt_trans (a b c : List Char) (h1 : charsLt a b = true) (h2 : charsLt b c = true) :
    charsLt a c = true := by
  induction a generalizing b c with
  | nil =>
    cases b with
    | nil => simp [charsLt] at h1
    | cons d ds =>
      cases c with
      | nil => simp [charsLt] at h2
      | cons e es => rfl
  | cons x xs ih =>
    cases b with
    | nil => simp [charsLt] at h1
    | cons d ds =>
      cases c with
      | nil => simp [charsLt] at h2
      | cons e es =>
        rcases lt_trichotomy x d with hxd | hxd | hxd
        · rcases lt_trichotomy d e with hde | hde | hde
          · simp [charsLt, lt_trans hxd hde]
          · subst hde; simp [charsLt, hxd]
          · simp [charsLt, hde, lt_asymm hde] at h2
        · subst hxd
          rcases lt_trichotomy x e with hde | hde | hde
          · simp [charsLt, hde]
          · subst hde
            simp only [charsLt, lt_self_iff_false, ↓reduceIte] at h1 h2 ⊢
            exact ih ds es h1 h2
          · simp [charsLt, hde, lt_asymm hde] at h2
        · simp [charsLt, hxd, lt_asymm hxd] at h1

/-- Not after is transitive. -/
theorem charsLt_false_trans (a b c : List Char) (h1 : charsLt b a = false)
    (h2 : charsLt c b = false) : charsLt c a = false := by
  cases h : charsLt c a
  · rfl
  · rcases charsLt_trichotomy a b with h3 | h3 | h3
    · rw [charsLt_trans c a b h h3] at h2
      exact absurd h2 (by simp)
    · subst h3
      rw [h] at h2
      exact absurd h2 (by simp)
    · rw [h3] at h1
      exact absurd h1 (by simp)

theorem rowLe_total (a b : EventRow) : rowLe a b ∨ rowLe b a := by
  unfold rowLe textLt
  rcases charsLt_trichotomy a.date.data b.date.data with h | h | h
  · exact Or.inl (Or.inl h)
  · have hd : a.date = b.date := String.ext h
    cases ht : charsLt b.time.data a.time.data
    · exact Or.inl (Or.inr ⟨hd, rfl⟩)
    · exact Or.inr (Or.inr ⟨hd.symm, charsLt_asymm _ _ ht⟩)
  · exact Or.inr (Or.inl h)

theorem rowLe_trans (a b c : EventRow) (h1 : rowLe a b) (h2 : rowLe b c) : rowLe a c := by
  unfold rowLe textLt at *
  rcases h1 with h1 | ⟨e1, t1⟩
  · rcases h2 with h2 | ⟨e2, t2⟩
    · exact Or.inl (charsLt_trans _ _ _ h1 h2)
    · rw [← e2]; exact Or.inl h1
  · rcases h2 with h2 | ⟨e2, t2⟩
    · rw [e1]; exact Or.inl h2
    · exact Or.inr ⟨e1.trans e2, charsLt_false_trans _ _ _ t1 t2⟩

theorem sorted_by_text (l : List EventRow) : (l.insertionSort rowLe).Sorted rowLe := by
  haveI : IsTotal EventRow rowLe := ⟨rowLe_total⟩
  haveI : IsTrans EventRow rowLe := ⟨rowLe_trans⟩
  exact List.sorted_insertionSort rowLe l

theorem digitChar_lt (x y : Nat) (hx : x < 10) (hy : y < 10) :
    Nat.digitChar x < Nat.digitChar y ↔ x < y := by
  interval_cases x <;> interval_cases y <;> decide

theorem charsLt_two (x y : Nat) (hx : x < 100) (hy : y < 100) (r1 r2 : List Char) :
    charsLt (Nat.digitChar (x / 10) :: Nat.digitChar (x % 10) :: r1)
        (Nat.digitChar (y / 10) :: Nat.digitChar (y % 10) :: r2) =
      if x < y then true else if y < x then false else charsLt r1 r2 := by
  have a1 := digitChar_lt (x / 10) (y / 10) (by omega) (by omega)
  have a2 := digitChar_lt (y / 10) (x / 10) (by omega) (by omega)
  have a3 := digitChar_lt (x % 10) (y % 10) (by omega) (by omega)
  have a4 := digitChar_lt (y % 10) (x % 10) (by omega) (by omega)
  simp only [charsLt, a1, a2, a3, a4]
  split_ifs <;> first | rfl | (exfalso; omega)

theorem charsLt_same (c : Char) (r1 r2 : List Char) :
    charsLt (c :: r1) (c :: r2) = charsLt r1 r2 := by
  simp [charsLt]

/-- The order of two date texts is the order of the dates. -/
theorem textLt_dateText (a b : Date) (ha : a.InRange) (hb : b.InRange) :
    textLt (dateText a) (dateText b) = true ↔
      a.year < b.year ∨ (a.year = b.year ∧
        (a.month < b.month ∨ (a.month = b.month ∧ a.day < b.day))) := by
  obtain ⟨hay, ham, had⟩ := ha
  obtain ⟨hby, hbm, hbd⟩ := hb
  have e1 : ∀ y : Nat, y / 1000 = y / 100 / 10 := fun y => by omega
  have e2 : ∀ y : Nat, y / 10 % 10 = y % 100 / 10 := fun y => by omega
  have e3 : ∀ y : Nat, y % 10 = y % 100 % 10 := fun y => by omega
  unfold textLt dateText
  simp only []
  rw [e1 a.year, e1 b.year, e2 a.year, e2 b.year, e3 a.year, e3 b.year,
    charsLt_two (a.year / 100) (b.year / 100) (by omega) (by omega),
    charsLt_two (a.year % 100) (b.year % 100) (by omega) (by omega), charsLt_same,
    charsLt_two a.month b.month (by omega) (by omega), charsLt_same,
    charsLt_two a.day b.day (by omega) (by omega)]
  simp only [charsLt]
  split_ifs <;> simp <;> omega

/-- The order of two time texts is the order of the times. -/
theorem textLt_timeText (a b : Time) (ha : a.InRange) (hb : b.InRange) :
    textLt (timeText a) (timeText b) = true ↔
      a.hour < b.hour ∨ (a.hour = b.hour ∧ a.minute < b.minute) := by
  obtain ⟨hah, ham⟩ := ha
  obtain ⟨hbh, hbm⟩ := hb
  unfold textLt timeText
  simp only []
  rw [charsLt_two a.hour b.hour (by omega) (by omega), charsLt_same,
    charsLt_two a.minute b.minute (by omega) (by omega)]
  simp only [charsLt]
  split_ifs <;> simp <;> omega

theorem dateText_injective (a b : Date) (ha : a.InRange) (hb : b.InRange)
    (h : dateText a = dateText b) : a = b := by
  have h1 := (textLt_dateText a b ha hb).not
  have h2 := (textLt_dateText b a hb ha).not
  rw [h] at h1
  rw [h] at h2
  simp only [textLt, charsLt_irrefl, Bool.false_eq_true, not_false_eq_true, true_iff] at h1 h2
  cases a
  cases b
  simp only [Date.mk.injEq]
  simp only at h1 h2
  omega

/-- On events in range the order of the rows is the order of the dates and
times. -/
theorem rowLe_eventRow (a b : Event) (ha : a.date.InRange ∧ a.time.InRange)
    (hb : b.date.InRange ∧ b.time.InRange) (h : rowLe (eventRow a) (eventRow b)) :
    dateTimeLe a b := by
  unfold rowLe eventRow at h
  simp only [formatDate_eq_dateText _ ha.1, formatDate_eq_dateText _ hb.1,
    formatTime_eq_timeText _ ha.2, formatTime_eq_timeText _ hb.2] at h
  unfold dateTimeLe
  rcases h with h | ⟨hd, ht⟩
  · have := (textLt_dateText _ _ ha.1 hb.1).1 h
    omega
  · have hdd := dateText_injective _ _ ha.1 hb.1 hd
    have htt := (textLt_timeText _ _ hb.2 ha.2).not.1 (by simp [ht])
    rw [hdd]
    omega

theorem shows_eventRow (e : Event) (h : e.date.InRange ∧ e.time.InRange) :
    Shows (eventRow e) e := by
  unfold Shows eventRow
  simp [formatDate_eq_dateText _ h.1, formatTime_eq_timeText _ h.2]

theorem sorted_by_row (l : List Event) : (l.insertionSort eventLe).Sorted eventLe := by
  haveI : IsTotal Event eventLe := ⟨fun a b => rowLe_total _ _⟩
  haveI : IsTrans Event eventLe := ⟨fun a b c => rowLe_trans _ _ _⟩
  exact List.sorted_insertionSort eventLe l

/-- C5: on a store whose dates and times are in range, GET /events with a
userId present is answered, once and with status 200, with rows that show, one
for one and in order, a rearrangement of exactly the stored events whose
user_id the store matches with the userId: id, user, title, description and
link as stored, the date as `YYYY-MM-DD`, the time as `HH:MM`. The rows ascend
by date text, then time text, and the events they show ascend by date, then
time. The store is unchanged, and on any store holding the same events in
another order the answer is again such rows, a rearrangement of the first. -/
theorem list_events_sorted (C : Codec) (s : Storage) (req : Request) (body : Fields)
    (f : Nat → Bool)
    (hm : req.method = Method.get) (hp : matchesLiteral "events" req.path = true)
    (hb : req.body = some body)
    (hu : (field req.query "userId").truthy = true)
    (hf : C.intEq (field req.query "userId") = Except.ok f)
    (hr : ∀ e ∈ s.events, e.date.InRange ∧ e.time.InRange) :
    ∃ (rows : List EventRow) (L : List Event),
      run C.db (handle req) s =
        ⟨[(200, Body.events rows)], false,
          [(Stmt.selectEvents (EventQuery.byUser (field req.query "userId")), true)], s⟩ ∧
      L.Perm (s.events.filter fun e => f e.user_id) ∧
      List.Forall₂ Shows rows L ∧
      rows.Sorted rowLe ∧
      L.Sorted dateTimeLe ∧
      ∀ s2 : Storage, s2.events.Perm s.events →
        ∃ rows2 : List EventRow,
          (run C.db (handle req) s2).responses = [(200, Body.events rows2)] ∧
          rows2.Perm rows ∧ rows2.Sorted rowLe := by
  have hrun : ∀ s : Storage, run C.db (handle req) s =
      ⟨[(200, Body.events
          (((s.events.filter fun e => f e.user_id).map eventRow).insertionSort rowLe))],
        false, [(Stmt.selectEvents (EventQuery.byUser (field req.query "userId")), true)],
        s⟩ := by
    intro s
    rw [handle_listEvents req body hm hp hb]
    simp [listEvents, hu, run, Codec.db, Codec.selectEvents, hf, succeeded]
  have hmap : ((s.events.filter fun e => f e.user_id).insertionSort eventLe).map eventRow =
      ((s.events.filter fun e => f e.user_id).map eventRow).insertionSort rowLe :=
    List.map_insertionSort eventLe rowLe eventRow _ (fun _ _ _ _ => Iff.rfl)
  have hperm := List.perm_insertionSort eventLe (s.events.filter fun e => f e.user_id)
  have hin : ∀ e ∈ (s.events.filter fun e => f e.user_id).insertionSort eventLe,
      e.date.InRange ∧ e.time.InRange := by
    intro e he
    exact hr e (List.mem_filter.1 ((hperm.mem_iff).1 he)).1
  refine ⟨_, (s.events.filter fun e => f e.user_id).insertionSort eventLe, hrun s, hperm,
    ?_, sorted_by_text _, ?_, fun s2 hp2 => ?_⟩
  · rw [← hmap, List.forall₂_map_left_iff, List.forall₂_same]
    intro e he
    exact shows_eventRow e (hin e he)
  · exact List.Pairwise.imp_of_mem
      (fun ha hb h => rowLe_eventRow _ _ (hin _ ha) (hin _ hb) h) (sorted_by_row _)
  · refine ⟨_, by rw [hrun s2], ?_, sorted_by_text _⟩
    exact ((List.perm_insertionSort _ _).trans ((hp2.filter _).map _)).trans
      (List.perm_insertionSort _ _).symm

/-- The listing of the example store for its first user: the event of
2024-01-15, inserted last, comes first. -/
theorem list_events_example :
    (run plainCodec.db (handle ⟨Method.get, ["events"], [("userId", JsVal.str "1")], some []⟩)
      exampleStorage).responses =
      [(200, Body.events
        [⟨3, 1, "Kickoff", "2024-01-15", "09:30", some "bring slides",
            some "https://example.com/kickoff"⟩,
          ⟨1, 1, "Launch", "2024-03-01", "10:00", none, none⟩])] := by
  decide

/-- C5 at a request: the events of user 1 in the example store. -/
theorem list_events_sorted_witness :
    ∃ (rows : List EventRow) (L : List Event),
      run plainCodec.db
          (handle ⟨Method.get, ["events"], [("userId", JsVal.str "1")], some []⟩)
          exampleStorage =
        ⟨[(200, Body.events rows)], false,
          [(Stmt.selectEvents (EventQuery.byUser
            (field [("userId", JsVal.str "1")] "userId")), true)], exampleStorage⟩ ∧
      L.Perm (exampleStorage.events.filter fun e => (fun column => column == 1) e.user_id) ∧
      List.Forall₂ Shows rows L ∧
      rows.Sorted rowLe ∧
      L.Sorted dateTimeLe ∧
      ∀ s2 : Storage, s2.events.Perm exampleStorage.events →
        ∃ rows2 : List EventRow,
          (run plainCodec.db
            (handle ⟨Method.get, ["events"], [("userId", JsVal.str "1")], some []⟩)
            s2).responses = [(200, Body.events rows2)] ∧
          rows2.Perm rows ∧ rows2.Sorted rowLe :=
  list_events_sorted plainCodec exampleStorage
    ⟨Method.get, ["events"], [("userId", JsVal.str "1")], some []⟩ []
    (fun column => column == 1) rfl (by decide) rfl (by decide) rfl
    (by unfold Date.InRange Time.InRange; decide)

theorem eventValues_ok (C : Codec) (title date time description link : JsVal)
    (t : String) (d : Date) (tm : Time) (de li : Option String)
    (h : C.eventValues title date time description link = Except.ok (t, d, tm, de, li)) :
    C.text title = Except.ok t ∧ C.date date = Except.ok d ∧ C.time time = Except.ok tm ∧
      C.nullable description = Except.ok de ∧ C.nullable link = Except.ok li := by
  unfold Codec.eventValues at h
  cases h1 : C.text title <;> simp only [h1, bind, Except.bind] at h
  · exact absurd h (by simp)
  cases h2 : C.date date <;> simp only [h2] at h
  · exact absurd h (by simp)
  cases h3 : C.time time <;> simp only [h3] at h
  · exact absurd h (by simp)
  cases h4 : C.nullable description <;> simp only [h4] at h
  · exact absurd h (by simp)
  cases h5 : C.nullable link <;> simp only [h5] at h
  · exact absurd h (by simp)
  simp only [pure, Except.pure, Except.ok.injEq, Prod.mk.injEq] at h
  obtain ⟨ha, hb, hc, hd, he⟩ := h
  subst ha hb hc hd he
  exact ⟨rfl, rfl, rfl, rfl, rfl⟩

theorem nullable_str (C : Codec) (hC : C.Faithful) (x : String) (o : Option String)
    (h : C.nullable (JsVal.str x) = Except.ok o) : o = some x := by
  unfold Codec.nullable at h
  cases h1 : C.text (JsVal.str x) with
  | error err => simp [h1, Except.map] at h
  | ok a =>
    simp only [h1, Except.map, Except.ok.injEq] at h
    rw [← h, hC.text_str _ _ h1]

theorem nullable_undefined (C : Codec) (o : Option String)
    (h : C.nullable JsVal.undefined = Except.ok o) : o = none := by
  simp only [Codec.nullable, Except.ok.injEq] at h
  exact h.symm

/-- C6: on a store that keeps text as given, after a PUT /events/:id answered
with status 200 the stored events are the events before with, in each event
the store matches with the id (there is one), title, date, time, description
and link replaced by what the store read from the request and id and user_id
kept, every other event and the users as they were; a string title,
description or link is stored as sent, and an omitted description or link is
stored as null. -/
theorem update_replaces_fields (C : Codec) (hC : C.Faithful) (s : Storage) (req : Request)
    (body : Fields) (id : String) (b : Body)
    (hm : req.method = Method.put) (hp : matchEventId req.path = some id)
    (hb : req.body = some body)
    (hok : (run C.db (handle req) s).responses = [(200, b)]) :
    ∃ (f : Nat → Bool) (t : String) (d : Date) (tm : Time) (de li : Option String),
      C.intEq (JsVal.str id) = Except.ok f ∧ (∃ e ∈ s.events, f e.id = true) ∧
      C.text (field body "title") = Except.ok t ∧
      C.date (field body "date") = Except.ok d ∧
      C.time (field body "time") = Except.ok tm ∧
      (run C.db (handle req) s).storage =
        ⟨s.users,
          s.events.map fun e => if f e.id then ⟨e.id, e.user_id, t, d, tm, de, li⟩ else e,
          s.nextUserId, s.nextEventId⟩ ∧
      b = Body.changed "Event updated successfully" id ∧
      (∀ x, field body "title" = JsVal.str x → t = x) ∧
      (∀ x, field body "description" = JsVal.str x → de = some x) ∧
      (∀ x, field body "link" = JsVal.str x → li = some x) ∧
      (field body "description" = JsVal.undefined → de = none) ∧
      (field body "link" = JsVal.undefined → li = none) := by
  rw [handle_updateEvent req body id hm hp hb] at hok ⊢
  have ht : (field body "title").truthy = true := by
    cases h : (field body "title").truthy
    · simp [updateEvent, h] at hok
    · rfl
  have hd : (field body "date").truthy = true := by
    cases h : (field body "date").truthy
    · simp [updateEvent, h] at hok
    · rfl
  have htm : (field body "time").truthy = true := by
    cases h : (field body "time").truthy
    · simp [updateEvent, h] at hok
    · rfl
  cases hf : C.intEq (JsVal.str id) with
  | error err =>
    simp [updateEvent, ht, hd, htm, run, Codec.db, Codec.write, hf, headerOf, storeAfter] at hok
  | ok f =>
    cases hcv : C.checkValues (field body "title") (field body "date") (field body "time")
        (field body "description") (field body "link") with
    | error err =>
      simp [updateEvent, ht, hd, htm, run, Codec.db, Codec.write, hf, hcv, headerOf,
        storeAfter] at hok
    | ok u =>
      by_cases hnil : s.events.filter (fun e => f e.id) = []
      · simp [updateEvent, ht, hd, htm, run, Codec.db, Codec.write, hf, hcv, hnil, headerOf,
          storeAfter] at hok
      · cases hv : C.eventValues (field body "title") (field body "date") (field body "time")
            (field body "description") (field body "link") with
        | error err =>
          simp [updateEvent, ht, hd, htm, run, Codec.db, Codec.write, hf, hcv, hnil, hv, headerOf,
            storeAfter] at hok
        | ok v =>
          obtain ⟨t, d, tm, de, li⟩ := v
          obtain ⟨h1, h2, h3, h4, h5⟩ := eventValues_ok C _ _ _ _ _ _ _ _ _ _ hv
          have hex : ∃ e ∈ s.events, f e.id = true := by
            obtain ⟨e, he⟩ := List.exists_mem_of_ne_nil _ hnil
            rw [List.mem_filter] at he
            exact ⟨e, he.1, he.2⟩
          have hlen : (s.events.filter fun e => f e.id).length ≠ 0 := by
            rw [Ne, List.length_eq_zero]
            exact hnil
          refine ⟨f, t, d, tm, de, li, rfl, hex, h1, h2, h3, ?_, ?_, ?_, ?_, ?_, ?_, ?_⟩
          · simp [updateEvent, ht, hd, htm, run, Codec.db, Codec.write, hf, hcv, hnil, hv, headerOf,
              storeAfter, hlen]
          · simp [updateEvent, ht, hd, htm, run, Codec.db, Codec.write, hf, hcv, hnil, hv, headerOf,
              storeAfter, hlen] at hok
            exact hok.symm
          · intro x hx
            rw [hx] at h1
            exact hC.text_str _ _ h1
          · intro x hx
            rw [hx] at h4
            exact nullable_str C hC x de h4
          · intro x hx
            rw [hx] at h5
            exact nullable_str C hC x li h5
          · intro hx
            rw [hx] at h4
            exact nullable_undefined C de h4
          · intro hx
            rw [hx] at h5
            exact nullable_undefined C li h5

/-- The example update: event 3 gets the new values and loses its description
and link; events 1 and 2 stay. -/
theorem update_example :
    (run plainCodec.db (handle exampleUpdate) exampleStorage).storage.events =
      [⟨1, 1, "Launch", ⟨2024, 3, 1⟩, ⟨10, 0⟩, none, none⟩,
        ⟨2, 2, "Review", ⟨2024, 2, 2⟩, ⟨14, 0⟩, none, none⟩,
        ⟨3, 1, "Kickoff, moved", ⟨2024, 1, 16⟩, ⟨9, 45⟩, none, none⟩] := by
  decide

/-- C6 at a request: the example update. -/
theorem update_replaces_fields_witness :
    ∃ (f : Nat → Bool) (t : String) (d : Date) (tm : Time) (de li : Option String),
      plainCodec.intEq (JsVal.str "3") = Except.ok f ∧
      (∃ e ∈ exampleStorage.events, f e.id = true) ∧
      plainCodec.text (JsVal.str "Kickoff, moved") = Except.ok t ∧
      plainCodec.date (JsVal.str "2024-1-16") = Except.ok d ∧
      plainCodec.time (JsVal.str "9:45") = Except.ok tm ∧
      (run plainCodec.db (handle exampleUpdate) exampleStorage).storage =
        ⟨exampleStorage.users,
          exampleStorage.events.map fun e =>
            if f e.id then ⟨e.id, e.user_id, t, d, tm, de, li⟩ else e,
          exampleStorage.nextUserId, exampleStorage.nextEventId⟩ ∧
      Body.changed "Event updated successfully" "3" =
        Body.changed "Event updated successfully" "3" ∧
      (∀ x, JsVal.str "Kickoff, moved" = JsVal.str x → t = x) ∧
      (∀ x, JsVal.undefined = JsVal.str x → de = some x) ∧
      (∀ x, JsVal.undefined = JsVal.str x → li = some x) ∧
      (JsVal.undefined = JsVal.undefined → de = none) ∧
      (JsVal.undefined = JsVal.undefined → li = none) :=
  update_replaces_fields plainCodec plainCodec_faithful exampleStorage exampleUpdate
    [("title", JsVal.str "Kickoff, moved"), ("date", JsVal.str "2024-1-16"),
      ("time", JsVal.str "9:45")]
    "3" (Body.changed "Event updated successfully" "3") rfl (by decide) rfl (by decide)

/-! ## Date and time texts, character by character -/

theorem digit_roundtrip (c : Char) (h : c.isDigit = true) :
    c.toNat - 48 < 10 ∧ Nat.digitChar (c.toNat - 48) = c := by
  have hc : Char.ofNat c.toNat = c := Char.ofNat_toNat c
  have h2 : 48 ≤ c.toNat ∧ c.toNat ≤ 57 := by
    simp only [Char.isDigit, Bool.and_eq_true, decide_eq_true_eq] at h
    have a := h.1
    have b := h.2
    simp only [UInt32.le_def, Char.toNat] at a b ⊢
    exact ⟨a, b⟩
  generalize c.toNat = n at hc h2
  obtain ⟨h3, h4⟩ := h2
  subst hc
  interval_cases n <;> exact ⟨by decide, by decide⟩

theorem digit_not_sep (sep c : Char) (hs : sep.isDigit = false) (h : c.isDigit = true) :
    c ≠ sep := by
  intro e
  subst e
  rw [h] at hs
  exact absurd hs (by simp)

theorem splitAt_digits (sep : Char) (hs : sep.isDigit = false) (a : List Char)
    (ha : ∀ c ∈ a, c.isDigit = true) : splitAt sep a = [a] := by
  induction a with
  | nil => rfl
  | cons c cs ih =>
    have hc := digit_not_sep sep c hs (ha c (List.mem_cons_self _ _))
    simp [splitAt, hc, ih (fun x hx => ha x (List.mem_cons_of_mem _ hx))]

theorem splitAt_digits_append (sep : Char) (hs : sep.isDigit = false) (a rest : List Char)
    (ha : ∀ c ∈ a, c.isDigit = true) :
    splitAt sep (a ++ sep :: rest) = a :: splitAt sep rest := by
  induction a with
  | nil => simp [splitAt]
  | cons c cs ih =>
    have hc := digit_not_sep sep c hs (ha c (List.mem_cons_self _ _))
    simp [splitAt, hc, ih (fun x hx => ha x (List.mem_cons_of_mem _ hx))]

theorem digitsValue_one (a : Char) (ha : a.isDigit = true) :
    digitsValue [a] = some (a.toNat - 48) := by
  simp [digitsValue, ha]

theorem digitsValue_two (a b : Char) (ha : a.isDigit = true) (hb : b.isDigit = true) :
    digitsValue [a, b] = some (10 * (a.toNat - 48) + (b.toNat - 48)) := by
  simp [digitsValue, ha, hb]

theorem digitsValue_four (a b c e : Char) (ha : a.isDigit = true) (hb : b.isDigit = true)
    (hc : c.isDigit = true) (he : e.isDigit = true) :
    digitsValue [a, b, c, e] =
      some (10 * (10 * (10 * (a.toNat - 48) + (b.toNat - 48)) + (c.toNat - 48)) +
        (e.toNat - 48)) := by
  simp [digitsValue, ha, hb, hc, he]

/-- The two digits of a number written with one or two digits are its text
with a zero in front when it is one digit. -/
theorem two_digits_of_text (m : List Char) (hm : ∀ c ∈ m, c.isDigit = true) (v : Nat)
    (hv : digitsValue m = some v) (hl : m.length ≤ 2) :
    [Nat.digitChar (v / 10), Nat.digitChar (v % 10)] = padTwo m := by
  match m, hm, hv, hl with
  | [], _, hv, _ => simp [digitsValue] at hv
  | [a], hm, hv, _ =>
    have ha := hm a (by simp)
    rw [digitsValue_one a ha] at hv
    obtain ⟨h1, h2⟩ := digit_roundtrip a ha
    simp only [Option.some.injEq] at hv
    subst hv
    have e0 : (a.toNat - 48) / 10 = 0 := by omega
    have e1 : (a.toNat - 48) % 10 = a.toNat - 48 := by omega
    rw [e0, e1, h2]
    rfl
  | [a, b], hm, hv, _ =>
    have ha := hm a (by simp)
    have hb := hm b (by simp)
    rw [digitsValue_two a b ha hb] at hv
    obtain ⟨h1, h2⟩ := digit_roundtrip a ha
    obtain ⟨h3, h4⟩ := digit_roundtrip b hb
    simp only [Option.some.injEq] at hv
    subst hv
    have e0 : (10 * (a.toNat - 48) + (b.toNat - 48)) / 10 = a.toNat - 48 := by omega
    have e1 : (10 * (a.toNat - 48) + (b.toNat - 48)) % 10 = b.toNat - 48 := by omega
    rw [e0, e1, h2, h4]
    rfl
  | _ :: _ :: _ :: _, _, _, hl => simp at hl

/-- The four digits of a number written with four digits are its text. -/
theorem four_digits_of_text (y : List Char) (hy : ∀ c ∈ y, c.isDigit = true) (v : Nat)
    (hv : digitsValue y = some v) (hl : y.length = 4) :
    [Nat.digitChar (v / 1000), Nat.digitChar (v / 100 % 10), Nat.digitChar (v / 10 % 10),
      Nat.digitChar (v % 10)] = y := by
  match y, hy, hv, hl with
  | [a, b, c, e], hy, hv, _ =>
    have ha := hy a (by simp)
    have hb := hy b (by simp)
    have hc := hy c (by simp)
    have he := hy e (by simp)
    rw [digitsValue_four a b c e ha hb hc he] at hv
    obtain ⟨h1, h2⟩ := digit_roundtrip a ha
    obtain ⟨h3, h4⟩ := digit_roundtrip b hb
    obtain ⟨h5, h6⟩ := digit_roundtrip c hc
    obtain ⟨h7, h8⟩ := digit_roundtrip e he
    simp only [Option.some.injEq] at hv
    subst hv
    generalize a.toNat - 48 = x1 at *
    generalize b.toNat - 48 = x2 at *
    generalize c.toNat - 48 = x3 at *
    generalize e.toNat - 48 = x4 at *
    have e0 : (10 * (10 * (10 * x1 + x2) + x3) + x4) / 1000 = x1 := by omega
    have e1 : (10 * (10 * (10 * x1 + x2) + x3) + x4) / 100 % 10 = x2 := by omega
    have e2 : (10 * (10 * (10 * x1 + x2) + x3) + x4) / 10 % 10 = x3 := by omega
    have e3 : (10 * (10 * (10 * x1 + x2) + x3) + x4) % 10 = x4 := by omega
    rw [e0, e1, e2, e3, h2, h4, h6, h8]

/-- A date text `year-month-day` that writes a date has that date's ten
characters once its month and day are written with two digits. -/
theorem dateText_of_text (y m dd : List Char) (d : Date)
    (hy : ∀ c ∈ y, c.isDigit = true) (hm : ∀ c ∈ m, c.isDigit = true)
    (hd : ∀ c ∈ dd, c.isDigit = true)
    (h : readDate (String.mk (y ++ '-' :: (m ++ '-' :: dd))) = Except.ok d) :
    dateText d = String.mk (y ++ '-' :: (padTwo m ++ '-' :: padTwo dd)) := by
  have hsplit : splitAt '-' (y ++ '-' :: (m ++ '-' :: dd)) = [y, m, dd] := by
    rw [splitAt_digits_append '-' (by decide) y _ hy,
      splitAt_digits_append '-' (by decide) m _ hm, splitAt_digits '-' (by decide) dd hd]
  unfold readDate at h
  simp only [hsplit] at h
  split at h
  · rename_i year month day hyv hmv hdv
    split at h
    · rename_i hc
      simp only [Except.ok.injEq] at h
      subst h
      have k1 := four_digits_of_text y hy year hyv hc.1
      have k2 := two_digits_of_text m hm month hmv hc.2.2.1
      have k3 := two_digits_of_text dd hd day hdv hc.2.2.2.2.2.1
      unfold dateText
      simp only []
      rw [← k1, ← k2, ← k3]
      rfl
    · exact absurd h (by simp)
  · exact absurd h (by simp)

/-- A time text `hour:minute` that writes a time has that time's five
characters once its hour and minute are written with two digits. -/
theorem timeText_of_text (hh mm : List Char) (t : Time)
    (hh1 : ∀ c ∈ hh, c.isDigit = true) (hm1 : ∀ c ∈ mm, c.isDigit = true)
    (h : readTime (String.mk (hh ++ ':' :: mm)) = Except.ok t) :
    timeText t = String.mk (padTwo hh ++ ':' :: padTwo mm) := by
  have hsplit : splitAt ':' (hh ++ ':' :: mm) = [hh, mm] := by
    rw [splitAt_digits_append ':' (by decide) hh _ hh1, splitAt_digits ':' (by decide) mm hm1]
  unfold readTime at h
  simp only [hsplit] at h
  split at h
  · rename_i hour minute hhv hmv
    split at h
    · rename_i hc
      simp only [Except.ok.injEq] at h
      subst h
      have k1 := two_digits_of_text hh hh1 hour hhv hc.1
      have k2 := two_digits_of_text mm hm1 minute hmv hc.2.2.1
      unfold timeText
      simp only []
      rw [← k1, ← k2]
      rfl
    · exact absurd h (by simp)
  · exact absurd h (by simp)

theorem readDate_inRange (s : String) (d : Date) (h : readDate s = Except.ok d) :
    d.InRange := by
  unfold readDate at h
  split at h
  · split at h
    · split at h
      · rename_i hc
        simp only [Except.ok.injEq] at h
        subst h
        exact ⟨hc.2.1, hc.2.2.2.2.1, hc.2.2.2.2.2.2.2⟩
      · exact absurd h (by simp)
    · exact absurd h (by simp)
  · exact absurd h (by simp)

theorem readTime_inRange (s : String) (t : Time) (h : readTime s = Except.ok t) :
    t.InRange := by
  unfold readTime at h
  split at h
  · split at h
    · split at h
      · rename_i hc
        simp only [Except.ok.injEq] at h
        subst h
        exact ⟨hc.2.1, hc.2.2.2⟩
      · exact absurd h (by simp)
    · exact absurd h (by simp)
  · exact absurd h (by simp)

theorem plainCodec_readsTexts : plainCodec.ReadsTexts where
  date_text := by
    intro s d d2 h1 h2
    simp only [plainCodec] at h2
    rw [h1] at h2
    simp only [Except.ok.injEq] at h2
    exact h2.symm
  time_text := by
    intro s t t2 h1 h2
    simp only [plainCodec] at h2
    rw [h1] at h2
    simp only [Except.ok.injEq] at h2
    exact h2.symm

/-- C7: on a store that keeps text as given and reads date and time texts as
written, with stored event ids below the next id: after a POST /events
answered with status 200 and id `i`, whose date is a text `year-month-day`
writing the date `d` and whose time is a text `hour:minute` writing the time
`tm`, a GET /events/:id whose id the store matches with `i` alone is answered
with status 200 and one record: id `i`, the user and title the store read from
the request (a string title as sent), the date `d` as the ten characters
`YYYY-MM-DD` and the time `tm` as the five characters `HH:MM`, each number with
zeros in front, description and link null when they were omitted. Where the
date was sent as digits `y-m-d` these ten characters are `y`, `m` and `d` with
a zero put before a single digit of `m` or `d`, and likewise the time. -/
theorem create_then_get (C : Codec) (hC : C.Faithful) (hT : C.ReadsTexts) (s : Storage)
    (create get : Request) (body getBody : Fields) (i : Nat) (msg p : String) (f : Nat → Bool)
    (ds ts : String) (d : Date) (tm : Time)
    (hwf : ∀ e ∈ s.events, e.id < s.nextEventId)
    (hm : create.method = Method.post) (hp : matchesLiteral "events" create.path = true)
    (hb : create.body = some body)
    (hds : field body "date" = JsVal.str ds) (hd : readDate ds = Except.ok d)
    (hts : field body "time" = JsVal.str ts) (ht : readTime ts = Except.ok tm)
    (hok : (run C.db (handle create) s).responses = [(200, Body.created i msg)])
    (hmg : get.method = Method.get) (hpg : matchEventId get.path = some p)
    (hbg : get.body = some getBody)
    (hf : C.intEq (JsVal.str p) = Except.ok f) (hfi : ∀ m, f m = true ↔ m = i) :
    ∃ (uid : Nat) (t : String) (de li : Option String),
      C.int (field body "userId") = Except.ok uid ∧
      C.text (field body "title") = Except.ok t ∧
      (run C.db (handle get) (run C.db (handle create) s).storage).responses =
        [(200, Body.event ⟨i, uid, t, dateText d, timeText tm, de, li⟩)] ∧
      (∀ x, field body "title" = JsVal.str x → t = x) ∧
      (field body "description" = JsVal.undefined → de = none) ∧
      (field body "link" = JsVal.undefined → li = none) ∧
      (∀ y m dd : List Char, (∀ c ∈ y, c.isDigit = true) → (∀ c ∈ m, c.isDigit = true) →
        (∀ c ∈ dd, c.isDigit = true) → ds = String.mk (y ++ '-' :: (m ++ '-' :: dd)) →
        dateText d = String.mk (y ++ '-' :: (padTwo m ++ '-' :: padTwo dd))) ∧
      (∀ hh mm : List Char, (∀ c ∈ hh, c.isDigit = true) → (∀ c ∈ mm, c.isDigit = true) →
        ts = String.mk (hh ++ ':' :: mm) →
        timeText tm = String.mk (padTwo hh ++ ':' :: padTwo mm)) := by
  rw [handle_createEvent create body hm hp hb] at hok ⊢
  rw [handle_getEvent get getBody p hmg hpg hbg]
  have hc : (!(field body "userId").truthy || !(field body "title").truthy ||
      !(field body "date").truthy || !(field body "time").truthy) = false := by
    cases h : (!(field body "userId").truthy || !(field body "title").truthy ||
      !(field body "date").truthy || !(field body "time").truthy)
    · rfl
    · simp [createEvent, h] at hok
  cases hu : C.int (field body "userId") with
  | error err =>
    simp [createEvent, hc, run, Codec.db, Codec.write, hu, headerOf, storeAfter] at hok
  | ok uid =>
    cases hv : C.eventValues (field body "title") (field body "date") (field body "time")
        (field body "description") (field body "link") with
    | error err =>
      simp [createEvent, hc, run, Codec.db, Codec.write, hu, hv, headerOf, storeAfter] at hok
    | ok v =>
      obtain ⟨t, d2, tm2, de, li⟩ := v
      obtain ⟨h1, h2, h3, h4, h5⟩ := eventValues_ok C _ _ _ _ _ _ _ _ _ _ hv
      rw [hds] at h2
      rw [hts] at h3
      have hd2 : d2 = d := hT.date_text ds d d2 hd h2
      have htm2 : tm2 = tm := hT.time_text ts tm tm2 ht h3
      subst hd2 htm2
      have hi : s.nextEventId = i := by
        simp [createEvent, hc, run, Codec.db, Codec.write, hu, hv, headerOf, storeAfter] at hok
        exact hok.1
      have hst : (run C.db (createEvent body) s).storage =
          ⟨s.users, s.events ++ [⟨s.nextEventId, uid, t, d2, tm2, de, li⟩], s.nextUserId,
            s.nextEventId + 1⟩ := by
        simp [createEvent, hc, run, Codec.db, Codec.write, hu, hv, headerOf, storeAfter]
      have hold : s.events.filter (fun e => f e.id) = [] := by
        apply filter_none
        intro e he
        cases hfe : f e.id
        · rfl
        · have := (hfi e.id).1 hfe
          have := hwf e he
          omega
      have hnew : f i = true := (hfi i).2 rfl
      refine ⟨uid, t, de, li, rfl, h1, ?_, ?_, ?_, ?_,
        fun y m dd hy hm2 hdd e => dateText_of_text y m dd d2 hy hm2 hdd (e ▸ hd),
        fun hh mm h1 h2 e => timeText_of_text hh mm tm2 h1 h2 (e ▸ ht)⟩
      · rw [hst]
        simp [getEvent, run, Codec.db, Codec.selectEvents, hf, List.filter_append, hold, hi,
          List.filter, hnew, eventRow, formatDate_eq_dateText _ (readDate_inRange _ _ hd),
          formatTime_eq_timeText _ (readTime_inRange _ _ ht)]
      · intro x hx
        rw [hx] at h1
        exact hC.text_str _ _ h1
      · intro hx
        rw [hx] at h4
        exact nullable_undefined C de h4
      · intro hx
        rw [hx] at h5
        exact nullable_undefined C li h5

/-- The example round trip: the date sent as 2024-4-5 comes back as 2024-04-05,
the time sent as 9:05 as 09:05, description and link as null. -/
theorem round_trip_example :
    (run plainCodec.db (handle exampleCreate) exampleStorage).responses =
      [(200, Body.created 4 "Event created successfully")] ∧
    (run plainCodec.db (handle exampleGet)
      (run plainCodec.db (handle exampleCreate) exampleStorage).storage).responses =
      [(200, Body.event ⟨4, 1, "Retro", "2024-04-05", "09:05", none, none⟩)] := by
  decide

/-- The ten characters of 5 April 2024 and the five characters of five past
nine. -/
theorem padded_texts_example :
    dateText ⟨2024, 4, 5⟩ = "2024-04-05" ∧ timeText ⟨9, 5⟩ = "09:05" := by
  decide

/-- C7 at two requests: the example round trip. -/
theorem create_then_get_witness :
    ∃ (uid : Nat) (t : String) (de li : Option String),
      plainCodec.int (JsVal.str "1") = Except.ok uid ∧
      plainCodec.text (JsVal.str "Retro") = Except.ok t ∧
      (run plainCodec.db (handle exampleGet)
        (run plainCodec.db (handle exampleCreate) exampleStorage).storage).responses =
        [(200, Body.event ⟨4, uid, t, dateText ⟨2024, 4, 5⟩, timeText ⟨9, 5⟩, de, li⟩)] ∧
      (∀ x, JsVal.str "Retro" = JsVal.str x → t = x) ∧
      (JsVal.undefined = JsVal.undefined → de = none) ∧
      (JsVal.undefined = JsVal.undefined → li = none) ∧
      (∀ y m dd : List Char, (∀ c ∈ y, c.isDigit = true) → (∀ c ∈ m, c.isDigit = true) →
        (∀ c ∈ dd, c.isDigit = true) → "2024-4-5" = String.mk (y ++ '-' :: (m ++ '-' :: dd)) →
        dateText ⟨2024, 4, 5⟩ = String.mk (y ++ '-' :: (padTwo m ++ '-' :: padTwo dd))) ∧
      (∀ hh mm : List Char, (∀ c ∈ hh, c.isDigit = true) → (∀ c ∈ mm, c.isDigit = true) →
        "9:05" = String.mk (hh ++ ':' :: mm) →
        timeText ⟨9, 5⟩ = String.mk (padTwo hh ++ ':' :: padTwo mm)) :=
  create_then_get plainCodec plainCodec_faithful plainCodec_readsTexts exampleStorage
    exampleCreate exampleGet
    [("userId", JsVal.str "1"), ("title", JsVal.str "Retro"),
      ("date", JsVal.str "2024-4-5"), ("time", JsVal.str "9:05")]
    [] 4 "Event created successfully" "4" (fun column => column == 4)
    "2024-4-5" "9:05" ⟨2024, 4, 5⟩ ⟨9, 5⟩
    (by decide) rfl (by decide) rfl rfl rfl rfl rfl (by decide) rfl (by decide) rfl rfl
    (by simp)

end Kickoff
